import Mathlib

/-!
# bip-coord: optimistic voting in `SlotPlanner.js` and `PollVoting.js`, and the
expense form of `ExpenseSplitter.js`

A shallow embedding of the vote handlers of the two voting components, of the two
sorted lists, and of the validation, submission and balance display of the expense
component.

* React state is an explicit record; a state setter called with an updater
  function is the application of that function to the record's field.
* An `async` handler is split at its `await`: the part before the request is
  issued (`handleVote`), and the two continuations (`handleVoteThen` for a
  resolved request, `handleVoteCatch` for a rejected one, each followed by the
  `finally` block where the source has one).  The constants a handler closes over
  (`myVotes`, `prevChoice`, ...) are stored with the pending request.
* Vote counts are JavaScript numbers holding integers; they are `Int` here, so
  that `Math.max(0, x - 1)` is a real floor and not an artefact of `Nat`.  The
  arithmetic on them is that of binary64: `jsAdd` and `jsSub` round the exact sum
  and difference to the nearest binary64 number, ties to even, so that
  `2 ^ 53 + 1` is `2 ^ 53`.  Up to `2 ^ 53` in magnitude they are the exact
  operations.  A count is a finite integer: magnitudes from `2 ^ 1024 - 2 ^ 970`
  on, which binary64 does not hold as finite numbers, are not meant.
-/

namespace BipCoord

/-! ## JavaScript helpers -/

/-- The expression `Math.max(0, x)` on an integer. -/
def mathMax0 (x : Int) : Int := if x < 0 then 0 else x

/-- The expression `x || 0` on an integer: `0` is the only falsy integer. -/
def orZero (x : Int) : Int := if x = 0 then 0 else x

/-- The number `2 ^ 53`: up to it every integer is a binary64 number. -/
def twoPow53 : Nat := 9007199254740992

/-- The constant `Number.MAX_SAFE_INTEGER`, `2 ^ 53 - 1`. -/
def maxSafeInteger : Int := 9007199254740991

/-- The search for the spacing of the binary64 numbers around `n`: the first of
`u`, `2 * u`, `4 * u`, ... that has `n < 2 ^ 53 * u`. -/
def ulpAux : Nat → Nat → Nat → Nat
  | 0, u, _ => u
  | fuel + 1, u, n => if n < twoPow53 * u then u else ulpAux fuel (2 * u) n

/-- The spacing of the binary64 numbers at the magnitude of `n`: `1` below
`2 ^ 53`, `2` from `2 ^ 53` to below `2 ^ 54`, `4` from `2 ^ 54`, and so on. -/
def ulp (n : Nat) : Nat := ulpAux n 1 n

/-- The multiple of `u` nearest to `n`; half-way between two multiples, the even
multiple. -/
def roundToMultiple (u n : Nat) : Nat :=
  let q := n / u
  let rem := n % u
  if 2 * rem < u then q * u
  else if u < 2 * rem then (q + 1) * u
  else if q % 2 = 0 then q * u else (q + 1) * u

/-- The binary64 number nearest to the natural number `n` (round to nearest, ties
to even). -/
def f64RoundNat (n : Nat) : Nat := roundToMultiple (ulp n) n

/-- The binary64 number nearest to the integer `x`. -/
def f64Round (x : Int) : Int :=
  if 0 ≤ x then (f64RoundNat x.toNat : Int) else -(f64RoundNat (-x).toNat : Int)

/-- The sum `a + b` of two numbers holding integers, as binary64 computes it:
the exact sum, rounded.  The operands are read as binary64 numbers, which a value
that came out of JavaScript already is. -/
def jsAdd (a b : Int) : Int := f64Round (f64Round a + f64Round b)

/-- The difference `a - b` of two numbers holding integers, as binary64 computes
it: the exact difference, rounded.  The operands are read as binary64 numbers. -/
def jsSub (a b : Int) : Int := f64Round (f64Round a - f64Round b)

/-- An identifier as it arrives in a JSON payload: a number or a string. -/
inductive JsId where
  | num (n : Int)
  | str (s : String)
  deriving DecidableEq, Repr

/-- JavaScript truthiness of an identifier: `0` and `""` are falsy. -/
def JsId.truthy : JsId → Bool
  | .num n => n != 0
  | .str s => s != ""

/-- Truthiness of a value that may be `null`. -/
def truthyOpt : Option JsId → Bool
  | none => false
  | some i => i.truthy

/-- The optional-chained read `error.response?.status` of a rejected request:
`none` when there is no response (network error, timeout). -/
structure RequestError where
  status : Option Nat
  deriving DecidableEq, Repr

/-- How an awaited request ends. -/
inductive Outcome where
  | resolved
  | rejected (error : RequestError)
  deriving DecidableEq, Repr

/-! ## SlotPlanner -/

namespace SlotPlanner

/-- The two values a slot vote can take (`"yes"` and `"no"`). -/
inductive VoteChoice where
  | yes
  | no
  deriving DecidableEq, Repr

/-- The object `myVotes`, `{ [slot_id]: 'yes' | 'no' }`, as an association list.
Only property reads are observed; a missing key reads as `undefined`. -/
abbrev VoteMap := List (String × VoteChoice)

/-- The property read `myVotes[slotId]`. -/
def VoteMap.get (m : VoteMap) (slotId : String) : Option VoteChoice :=
  match m with
  | [] => none
  | (k, v) :: rest => if k = slotId then some v else VoteMap.get rest slotId

/-- The spread-and-assign `{ ...prev, [slotId]: choice }`. -/
def VoteMap.set (m : VoteMap) (slotId : String) (choice : VoteChoice) : VoteMap :=
  match m with
  | [] => [(slotId, choice)]
  | (k, v) :: rest =>
    if k = slotId then (k, choice) :: rest else (k, v) :: VoteMap.set rest slotId choice

/-- A slot of the summary payload. -/
structure Slot where
  slot_id : String
  start_time : Option String
  end_time : Option String
  yes_votes : Int
  no_votes : Int
  isWinning : Bool
  user_choice : Option String
  deriving DecidableEq, Repr

/-- The callback of the first `setSlots` in `handleVote` (the optimistic update),
applied to one slot; `myVotes` is the map the handler closed over. -/
def optimisticApply (myVotes : VoteMap) (slotId : String) (choice : VoteChoice)
    (s : Slot) : Slot :=
  if s.slot_id ≠ slotId then s
  else
    let yes := orZero s.yes_votes
    let no := orZero s.no_votes
    let prevChoice := myVotes.get slotId
    let nextYes := if prevChoice = some VoteChoice.yes then mathMax0 (jsSub yes 1) else yes
    let nextNo := if prevChoice = some VoteChoice.no then mathMax0 (jsSub no 1) else no
    let nextYes := if choice = VoteChoice.yes then jsAdd nextYes 1 else nextYes
    let nextNo := if choice = VoteChoice.no then jsAdd nextNo 1 else nextNo
    { s with yes_votes := nextYes, no_votes := nextNo }

/-- The callback of the `setSlots` in the `catch` block of `handleVote` (the
rollback), applied to one slot. -/
def rollback (myVotes : VoteMap) (slotId : String) (choice : VoteChoice)
    (s : Slot) : Slot :=
  if s.slot_id ≠ slotId then s
  else
    let yes := orZero s.yes_votes
    let no := orZero s.no_votes
    let nextYes := if choice = VoteChoice.yes then mathMax0 (jsSub yes 1) else yes
    let nextNo := if choice = VoteChoice.no then mathMax0 (jsSub no 1) else no
    let prevChoice := myVotes.get slotId
    let nextYes := if prevChoice = some VoteChoice.yes then jsAdd nextYes 1 else nextYes
    let nextNo := if prevChoice = some VoteChoice.no then jsAdd nextNo 1 else nextNo
    { s with yes_votes := nextYes, no_votes := nextNo }

/-- The body of `POST /events/{eventId}/vote-slot`. -/
structure VoteSlotBody where
  user_id : String
  slot_id : String
  choice : VoteChoice
  deriving DecidableEq, Repr

/-- A `handleVote` call suspended at `await axios.post(...)`, with the arguments
and the `myVotes` of the render whose handler was invoked. -/
structure PendingVote where
  slotId : String
  choice : VoteChoice
  myVotes : VoteMap
  deriving DecidableEq, Repr

/-- The component: its props, the React state the vote handler touches, and the
observable effects (requests issued, `alert` messages shown). -/
structure State where
  eventId : String
  userId : String
  slots : List Slot
  myVotes : VoteMap
  voteLoadingId : Option String
  posted : List VoteSlotBody
  pending : List PendingVote
  summaryGets : Nat
  alerts : List String
  deriving DecidableEq, Repr

/-- The message of the `alert` in the `status === 429` branch. -/
def rateLimitNotice : String := "Çok hızlı oy veriyorsunuz. 2 saniye bekleyin."

/-- The message of the `alert` in the `else` branch. -/
def genericNotice : String := "Hata oluştu!"

/-- The classification at the end of the `catch` block of `handleVote`:
the message passed to `alert`. -/
def failureNotice (error : RequestError) : String :=
  if error.status = some 429 then rateLimitNotice else genericNotice

/-- The callback of `setMyVotes` in the `catch` block of `handleVote`:
`copy = { ...prev }; if (copy[slotId]) copy[slotId] = copy[slotId]; return copy`.
Both `"yes"` and `"no"` are truthy, so the assignment runs whenever the key is
present. -/
def restoreSelection (prev : VoteMap) (slotId : String) : VoteMap :=
  let copy := prev
  match copy.get slotId with
  | some v => copy.set slotId v
  | none => copy

/-- The function `fetchSlots` up to its `await`: nothing without an `eventId`,
otherwise one `GET /events/{eventId}/summary` is issued. -/
def fetchSlots (st : State) : State :=
  if st.eventId = "" then st else { st with summaryGets := st.summaryGets + 1 }

/-- The test `s.user_choice === "yes" || s.user_choice === "no"`. -/
def userChoice (s : Slot) : Option VoteChoice :=
  if s.user_choice = some "yes" then some VoteChoice.yes
  else if s.user_choice = some "no" then some VoteChoice.no
  else none

/-- The function `fetchSlots` after its `await`, for a response carrying the
slot list `fetched`. -/
def fetchSlotsThen (fetched : List Slot) (st : State) : State :=
  let mv : VoteMap := fetched.foldl
    (fun mv s => match userChoice s with
      | some c => mv.set s.slot_id c
      | none => mv) []
  { st with
    slots := fetched
    myVotes := if mv.length ≠ 0 then mv else st.myVotes
    summaryGets := st.summaryGets - 1 }

/-- The function `handleVote` up to its `await`: the guard on `voteLoadingId`,
the optimistic update of `slots` and `myVotes`, and the request. -/
def handleVote (slotId : String) (choice : VoteChoice) (st : State) : State :=
  if st.voteLoadingId = some slotId then st
  else
    { st with
      voteLoadingId := some slotId
      slots := st.slots.map (optimisticApply st.myVotes slotId choice)
      myVotes := st.myVotes.set slotId choice
      posted := st.posted ++
        [{ user_id := st.userId, slot_id := slotId, choice := choice }]
      pending := st.pending ++
        [{ slotId := slotId, choice := choice, myVotes := st.myVotes }] }

/-- The `try` block of `handleVote` after a resolved request (`fetchSlots()` is
called, not awaited), followed by the `finally` block. -/
def handleVoteThen (_p : PendingVote) (st : State) : State :=
  { fetchSlots st with voteLoadingId := none }

/-- The `catch` block of `handleVote`, followed by the `finally` block. -/
def handleVoteCatch (p : PendingVote) (error : RequestError) (st : State) : State :=
  { st with
    slots := st.slots.map (rollback p.myVotes p.slotId p.choice)
    myVotes := restoreSelection st.myVotes p.slotId
    alerts := st.alerts ++ [failureNotice error]
    voteLoadingId := none }

/-- The continuation of a suspended `handleVote` for either outcome. -/
def complete (p : PendingVote) (o : Outcome) (st : State) : State :=
  match o with
  | Outcome.resolved => handleVoteThen p st
  | Outcome.rejected error => handleVoteCatch p error st

/-- What can happen to a mounted component. -/
inductive Event where
  | vote (slotId : String) (choice : VoteChoice)
  | settle (i : Nat) (o : Outcome)
  | summary (fetched : List Slot)
  deriving DecidableEq, Repr

/-- One event: a click on a vote button, the `i`-th pending vote request
settling, or the response of an outstanding summary request arriving. -/
def step (st : State) : Event → State
  | Event.vote slotId choice => handleVote slotId choice st
  | Event.settle i o =>
    match st.pending[i]? with
    | none => st
    | some p => complete p o { st with pending := st.pending.eraseIdx i }
  | Event.summary fetched =>
    if st.summaryGets = 0 then st else fetchSlotsThen fetched st

/-- A sequence of events, oldest first. -/
def run (st : State) (events : List Event) : State := events.foldl step st

/-- The component after mounting: the `useState` defaults, then the effect that
calls `fetchSlots`. -/
def mount (eventId userId : String) : State :=
  fetchSlots
    { eventId := eventId, userId := userId, slots := [], myVotes := [],
      voteLoadingId := none, posted := [], pending := [], summaryGets := 0,
      alerts := [] }

/-- The states a mounted component can be in. -/
def Reachable (st : State) : Prop :=
  ∃ eventId userId events, run (mount eventId userId) events = st

end SlotPlanner

/-! ## PollVoting -/

namespace PollVoting

/-- An element of `choices`, as normalised by `fetchPoll`. -/
structure PollChoice where
  choice_id : JsId
  text : String
  location : String
  votes : Int
  deriving DecidableEq, Repr

/-- The callback of the first `setChoices` in `handleVote` (the optimistic
update), applied to one choice; `myChoiceId` is the value the handler closed
over. -/
def optimisticApply (myChoiceId : Option JsId) (choiceId : JsId)
    (c : PollChoice) : PollChoice :=
  let v := orZero c.votes
  let v := if truthyOpt myChoiceId = true ∧ some c.choice_id = myChoiceId
    then mathMax0 (jsSub v 1) else v
  let v := if c.choice_id = choiceId then jsAdd v 1 else v
  { c with votes := v }

/-- The callback of the `setChoices` in the `catch` block of `handleVote` (the
rollback), applied to one choice. -/
def rollback (prevChoice : Option JsId) (choiceId : JsId)
    (c : PollChoice) : PollChoice :=
  let v := orZero c.votes
  let v := if c.choice_id = choiceId then mathMax0 (jsSub v 1) else v
  let v := if truthyOpt prevChoice = true ∧ some c.choice_id = prevChoice
    then jsAdd v 1 else v
  { c with votes := v }

/-- The expression `prevChoice || null`. -/
def orNull (prevChoice : Option JsId) : Option JsId :=
  if truthyOpt prevChoice = true then prevChoice else none

/-- The body of `POST /events/{eventId}/vote`. -/
structure VoteBody where
  user_id : String
  poll_id : JsId
  choice_id : JsId
  deriving DecidableEq, Repr

/-- A `handleVote` call suspended at `await axios.post(...)`, with its argument
and the constant `prevChoice`. -/
structure PendingVote where
  choiceId : JsId
  prevChoice : Option JsId
  deriving DecidableEq, Repr

/-- The component: its props, the React state the vote handler touches, and the
observable effects (requests issued, `alert` messages shown). -/
structure State where
  eventId : String
  userId : String
  pollId : Option JsId
  choices : List PollChoice
  pollCreated : Bool
  myChoiceId : Option JsId
  posted : List VoteBody
  pending : List PendingVote
  summaryGets : Nat
  alerts : List String
  deriving DecidableEq, Repr

/-- The message of the `alert` in the `status === 429` branch. -/
def rateLimitNotice : String := "Çok hızlı oy veriyorsunuz. 2 saniye bekleyin."

/-- The message of the `alert` in the `status === 403` branch. -/
def lockedNotice : String := "Oylama kilitlendi!"

/-- The message of the `alert` in the `else` branch. -/
def genericNotice : String := "Hata oluştu!"

/-- The classification at the end of the `catch` block of `handleVote`:
the message passed to `alert`. -/
def failureNotice (error : RequestError) : String :=
  if error.status = some 429 then rateLimitNotice
  else if error.status = some 403 then lockedNotice
  else genericNotice

/-- The function `handleVote` up to its `await`: the `pollCreated` test, the
optimistic update of `choices` and `myChoiceId`, and the request. -/
def handleVote (choiceId : JsId) (st : State) : State :=
  if st.pollCreated = false then st
  else
    let effectivePollId := st.pollId.getD (JsId.num 1)
    let prevChoice := st.myChoiceId
    { st with
      choices := st.choices.map (optimisticApply st.myChoiceId choiceId)
      myChoiceId := some choiceId
      posted := st.posted ++
        [{ user_id := st.userId, poll_id := effectivePollId, choice_id := choiceId }]
      pending := st.pending ++ [{ choiceId := choiceId, prevChoice := prevChoice }] }

/-- The `try` block of `handleVote` after a resolved request: `fetchPoll()` is
called, which issues one `GET /events/{eventId}/summary`. -/
def handleVoteThen (_p : PendingVote) (st : State) : State :=
  { st with summaryGets := st.summaryGets + 1 }

/-- The `catch` block of `handleVote`. -/
def handleVoteCatch (p : PendingVote) (error : RequestError) (st : State) : State :=
  { st with
    choices := st.choices.map (rollback p.prevChoice p.choiceId)
    myChoiceId := orNull p.prevChoice
    alerts := st.alerts ++ [failureNotice error] }

end PollVoting

/-! ## Sequences of tally updates of both components -/

/-- The vote counts held by the two components. -/
structure Tallies where
  slots : List SlotPlanner.Slot
  choices : List PollVoting.PollChoice
  deriving DecidableEq, Repr

/-- One tally update: an optimistic apply or a rollback of either component, with
any prior selection and any choice. -/
inductive TallyOp where
  | slotApply (myVotes : SlotPlanner.VoteMap) (slotId : String)
      (choice : SlotPlanner.VoteChoice)
  | slotRollback (myVotes : SlotPlanner.VoteMap) (slotId : String)
      (choice : SlotPlanner.VoteChoice)
  | pollApply (myChoiceId : Option JsId) (choiceId : JsId)
  | pollRollback (prevChoice : Option JsId) (choiceId : JsId)
  deriving DecidableEq, Repr

/-- The effect of one tally update: the `map` of the matching `setSlots` or
`setChoices` call. -/
def TallyOp.exec (t : Tallies) : TallyOp → Tallies
  | TallyOp.slotApply myVotes slotId choice =>
    { t with slots := t.slots.map (SlotPlanner.optimisticApply myVotes slotId choice) }
  | TallyOp.slotRollback myVotes slotId choice =>
    { t with slots := t.slots.map (SlotPlanner.rollback myVotes slotId choice) }
  | TallyOp.pollApply myChoiceId choiceId =>
    { t with choices := t.choices.map (PollVoting.optimisticApply myChoiceId choiceId) }
  | TallyOp.pollRollback prevChoice choiceId =>
    { t with choices := t.choices.map (PollVoting.rollback prevChoice choiceId) }

/-- A sequence of tally updates, oldest first. -/
def Tallies.runOps (t : Tallies) (ops : List TallyOp) : Tallies :=
  ops.foldl TallyOp.exec t

/-- Every count is a non-negative integer. -/
def Tallies.NonNeg (t : Tallies) : Prop :=
  (∀ s ∈ t.slots, 0 ≤ s.yes_votes ∧ 0 ≤ s.no_votes) ∧ (∀ c ∈ t.choices, 0 ≤ c.votes)

instance (t : Tallies) : Decidable t.NonNeg := by
  unfold Tallies.NonNeg
  infer_instance

/-! ## Concrete data for examples -/

/-- A slot with the given id and counts, and nothing else set. -/
def SlotPlanner.slotOf (slotId : String) (yes no : Int) : SlotPlanner.Slot :=
  { slot_id := slotId, start_time := none, end_time := none, yes_votes := yes,
    no_votes := no, isWinning := false, user_choice := none }

/-- A poll choice with the given id and votes, and empty texts. -/
def PollVoting.choiceOf (choiceId : JsId) (votes : Int) : PollVoting.PollChoice :=
  { choice_id := choiceId, text := "", location := "", votes := votes }

/-- A poll component with the given choices and selection, the poll created and
no request issued yet. -/
def PollVoting.stateOf (choices : List PollVoting.PollChoice)
    (myChoiceId : Option JsId) : PollVoting.State :=
  { eventId := "e1", userId := "u1", pollId := none, choices := choices,
    pollCreated := true, myChoiceId := myChoiceId, posted := [], pending := [],
    summaryGets := 0, alerts := [] }

/-- A slot component with the given slots and selections, and no request issued
yet. -/
def SlotPlanner.stateOf (slots : List SlotPlanner.Slot)
    (myVotes : SlotPlanner.VoteMap) : SlotPlanner.State :=
  { eventId := "e1", userId := "u1", slots := slots, myVotes := myVotes,
    voteLoadingId := none, posted := [], pending := [], summaryGets := 0,
    alerts := [] }

/-! ## JavaScript numbers, values and built-in functions

The expense component goes through `parseFloat`, `Number`, `Date`,
`localeCompare`, `Intl.NumberFormat` and `toFixed`.  These are not code of the
repository: the definitions below take them as a record `Builtins`, and the
theorems hold for every such record.  `Builtins.reference` is one concrete
record, used to evaluate the definitions on examples. -/

/-- A JavaScript number: `NaN`, an infinity, or a finite value. -/
inductive JsNum where
  | nan
  | posInf
  | negInf
  | fin (q : ℚ)
  deriving DecidableEq

namespace JsNum

/-- The test `Number.isNaN(x)`. -/
def isNaN : JsNum → Bool
  | nan => true
  | _ => false

/-- The test `Number.isFinite(x)`. -/
def isFinite : JsNum → Bool
  | fin _ => true
  | _ => false

/-- The comparison `a < b`; it is `false` when either side is `NaN`. -/
def lt : JsNum → JsNum → Bool
  | nan, _ => false
  | _, nan => false
  | _, negInf => false
  | negInf, _ => true
  | posInf, _ => false
  | fin _, posInf => true
  | fin a, fin b => decide (a < b)

/-- The comparison `a <= b`; it is `false` when either side is `NaN`. -/
def le : JsNum → JsNum → Bool
  | nan, _ => false
  | _, nan => false
  | negInf, _ => true
  | _, negInf => false
  | _, posInf => true
  | posInf, fin _ => false
  | fin a, fin b => decide (a ≤ b)

/-- The function `Math.abs`. -/
def abs : JsNum → JsNum
  | nan => nan
  | posInf => posInf
  | negInf => posInf
  | fin q => fin |q|

/-- Truthiness of a number: `0` and `NaN` are falsy. -/
def truthy : JsNum → Bool
  | nan => false
  | fin q => decide (q ≠ 0)
  | _ => true

/-- The expression `x || 0` on a number. -/
def orZero (x : JsNum) : JsNum := if x.truthy = true then x else fin 0

end JsNum

/-- A JavaScript value as it can sit in a loosely typed field. -/
inductive JsVal where
  | undefined
  | null
  | num (n : JsNum)
  | str (s : String)
  deriving DecidableEq

/-- Truthiness of a value: `undefined`, `null`, `0`, `NaN` and `""` are falsy. -/
def JsVal.truthy : JsVal → Bool
  | JsVal.undefined => false
  | JsVal.null => false
  | JsVal.num n => n.truthy
  | JsVal.str s => s != ""

/-- The built-in functions the components call. -/
structure Builtins where
  /-- The function `parseFloat` on a string. -/
  parseFloat : String → JsNum
  /-- The function `Number` on a string. -/
  stringToNumber : String → JsNum
  /-- The expression `new Date(s).getTime()` on a string; `none` is `NaN`
  (an invalid date). -/
  getTime : String → Option Int
  /-- The call `a.localeCompare(b)`. -/
  localeCompare : String → String → Int
  /-- The call `new Intl.NumberFormat("tr-TR", ...).format(x)`; `none` when it
  throws. -/
  intlFormat : JsNum → Option String
  /-- The call `x.toFixed(2)`. -/
  toFixed2 : JsNum → String

/-- What ECMAScript requires of `localeCompare`: a consistent comparator, that is
a total order on strings up to the strings it regards as equal. -/
def Builtins.ConsistentCollation (js : Builtins) : Prop :=
  (∀ a, js.localeCompare a a = 0) ∧
  (∀ a b, js.localeCompare a b < 0 ↔ 0 < js.localeCompare b a) ∧
  (∀ a b c, js.localeCompare a b ≤ 0 → js.localeCompare b c ≤ 0 →
    js.localeCompare a c ≤ 0)

/-- The function `Number` on a value. -/
def toNumber (js : Builtins) : JsVal → JsNum
  | JsVal.undefined => JsNum.nan
  | JsVal.null => JsNum.fin 0
  | JsVal.num n => n
  | JsVal.str s => js.stringToNumber s

/-- The white space and line terminator characters of ECMAScript, the ones that
`trim` and the numeric parsers skip. -/
def isJsWhiteSpace (c : Char) : Bool :=
  let n := c.toNat
  n == 9 || n == 10 || n == 11 || n == 12 || n == 13 || n == 32 || n == 160 ||
  n == 5760 || (8192 ≤ n && n ≤ 8202) || n == 8232 || n == 8233 || n == 8239 ||
  n == 8287 || n == 12288 || n == 65279

/-- The method `trim` on a list of characters. -/
def trimChars (cs : List Char) : List Char :=
  ((cs.dropWhile isJsWhiteSpace).reverse.dropWhile isJsWhiteSpace).reverse

/-- The method `s.trim()`. -/
def jsTrim (s : String) : String := String.mk (trimChars s.toList)

/-- The first `','` of a list of characters turned into `'.'`. -/
def replaceCommaChars : List Char → List Char
  | [] => []
  | c :: cs => if c = ',' then '.' :: cs else c :: replaceCommaChars cs

/-- The call `s.replace(",", ".")`: a string pattern replaces its first
occurrence only. -/
def replaceComma (s : String) : String := String.mk (replaceCommaChars s.toList)

/-! ### A reference record of built-ins

Decimal literals are read exactly (no rounding to binary64), dates are ISO
`YYYY-MM-DD` calendar dates, strings are compared by code point, and the
locale-aware formatter is unavailable. -/

/-- A decimal digit. -/
def isDigitChar (c : Char) : Bool := 48 ≤ c.toNat && c.toNat ≤ 57

/-- The number written by a list of decimal digits. -/
def digitsValue (cs : List Char) : Nat :=
  cs.foldl (fun n c => 10 * n + (c.toNat - 48)) 0

/-- The finite number `± m · 10 ^ e`. -/
def decimalValue (negative : Bool) (m : Nat) (e : Int) : JsNum :=
  let n : Int := if negative = true then -(m : Int) else (m : Int)
  if 0 ≤ e then JsNum.fin (mkRat (n * 10 ^ e.toNat) 1)
  else JsNum.fin (mkRat n (10 ^ (-e).toNat))

/-- An `ExponentPart` at the head of the input, if there is a complete one: its
value and the rest of the input. -/
def parseExponent (cs : List Char) : Int × List Char :=
  match cs with
  | [] => (0, [])
  | c :: rest =>
    if c = 'e' ∨ c = 'E' then
      let signed : Bool × List Char :=
        match rest with
        | '-' :: r => (true, r)
        | '+' :: r => (false, r)
        | r => (false, r)
      let ds := signed.2.takeWhile isDigitChar
      if ds = [] then (0, cs)
      else
        (if signed.1 = true then -(digitsValue ds : Int) else (digitsValue ds : Int),
          signed.2.dropWhile isDigitChar)
    else (0, cs)

/-- The longest `StrUnsignedDecimalLiteral` at the head of the input: its value
(with the sign read before it) and the rest of the input. -/
def parseUnsigned (negative : Bool) (cs : List Char) : Option (JsNum × List Char) :=
  if cs.take 8 = "Infinity".toList then
    some (if negative = true then JsNum.negInf else JsNum.posInf, cs.drop 8)
  else
    let ints := cs.takeWhile isDigitChar
    let rest1 := cs.dropWhile isDigitChar
    let frac : List Char × List Char :=
      match rest1 with
      | '.' :: r => (r.takeWhile isDigitChar, r.dropWhile isDigitChar)
      | r => ([], r)
    if ints = [] ∧ frac.1 = [] then none
    else
      let ex := parseExponent frac.2
      some (decimalValue negative (digitsValue (ints ++ frac.1))
        (ex.1 - (frac.1.length : Int)), ex.2)

/-- The longest `StrDecimalLiteral` at the head of the input. -/
def parseDecimal (cs : List Char) : Option (JsNum × List Char) :=
  match cs with
  | '-' :: r => parseUnsigned true r
  | '+' :: r => parseUnsigned false r
  | r => parseUnsigned false r

/-- The function `parseFloat`: leading white space is skipped and the longest
decimal literal at the head is read; `NaN` if there is none. -/
def refParseFloat (s : String) : JsNum :=
  match parseDecimal (s.toList.dropWhile isJsWhiteSpace) with
  | some (v, _) => v
  | none => JsNum.nan

/-- The value of a digit in a radix up to 16. -/
def radixDigit (c : Char) : Option Nat :=
  let n := c.toNat
  if 48 ≤ n ∧ n ≤ 57 then some (n - 48)
  else if 97 ≤ n ∧ n ≤ 102 then some (n - 87)
  else if 65 ≤ n ∧ n ≤ 70 then some (n - 55)
  else none

/-- The number written by a non-empty list of digits of the given radix. -/
def radixValue (radix : Nat) (ds : List Char) : Option Nat :=
  if ds = [] then none
  else ds.foldl
    (fun acc c =>
      match acc, radixDigit c with
      | some a, some d => if d < radix then some (a * radix + d) else none
      | _, _ => none)
    (some 0)

/-- A `NonDecimalIntegerLiteral` (`0x`, `0o`, `0b`) taking the whole input. -/
def parseNonDecimal (cs : List Char) : Option Nat :=
  match cs with
  | '0' :: c :: ds =>
    if c = 'x' ∨ c = 'X' then radixValue 16 ds
    else if c = 'o' ∨ c = 'O' then radixValue 8 ds
    else if c = 'b' ∨ c = 'B' then radixValue 2 ds
    else none
  | _ => none

/-- The function `Number` on a string: white space is trimmed, the empty string
is `0`, a numeric literal taking the whole string is read, anything else is
`NaN`. -/
def refStringToNumber (s : String) : JsNum :=
  let t := trimChars s.toList
  if t = [] then JsNum.fin 0
  else
    match parseNonDecimal t with
    | some n => JsNum.fin (mkRat (n : Int) 1)
    | none =>
      match parseDecimal t with
      | some (v, []) => v
      | _ => JsNum.nan

/-- The number of days in a month of the proleptic Gregorian calendar. -/
def daysInMonth (y m : Nat) : Nat :=
  if m = 2 then (if (y % 4 = 0 ∧ y % 100 ≠ 0) ∨ y % 400 = 0 then 29 else 28)
  else if m = 4 ∨ m = 6 ∨ m = 9 ∨ m = 11 then 30
  else 31

/-- The number of days from 1970-01-01 to the given calendar date. -/
def daysFromCivil (y m d : Nat) : Int :=
  let yy : Int := if m ≤ 2 then (y : Int) - 1 else (y : Int)
  let era : Int := yy / 400
  let yoe : Int := yy - era * 400
  let mp : Int := if m ≤ 2 then (m : Int) + 9 else (m : Int) - 3
  let doy : Int := (153 * mp + 2) / 5 + (d : Int) - 1
  let doe : Int := yoe * 365 + yoe / 4 - yoe / 100 + doy
  era * 146097 + doe - 719468

/-- The time value of an ISO date-only string `YYYY-MM-DD` (midnight UTC), in
milliseconds; every other string is an invalid date. -/
def refGetTime (s : String) : Option Int :=
  match s.toList with
  | [y1, y2, y3, y4, '-', m1, m2, '-', d1, d2] =>
    if [y1, y2, y3, y4, m1, m2, d1, d2].all isDigitChar = true then
      let y := digitsValue [y1, y2, y3, y4]
      let m := digitsValue [m1, m2]
      let d := digitsValue [d1, d2]
      if 1 ≤ m ∧ m ≤ 12 ∧ 1 ≤ d ∧ d ≤ daysInMonth y m then
        some (daysFromCivil y m d * 86400000)
      else none
    else none
  | _ => none

/-- Comparison of two lists of code points, first difference first: negative,
zero or positive. -/
def lexCompare : List Nat → List Nat → Int
  | [], [] => 0
  | [], _ :: _ => -1
  | _ :: _, [] => 1
  | a :: as, b :: bs => if a < b then -1 else if b < a then 1 else lexCompare as bs

/-- Comparison of two strings by code point. -/
def refLocaleCompare (a b : String) : Int :=
  lexCompare (a.toList.map Char.toNat) (b.toList.map Char.toNat)

/-- The decimal digits of a natural number, at least `width` of them. -/
def padDigits (width n : Nat) : String :=
  let ds := (Nat.toDigits 10 n)
  String.mk (List.replicate (width - ds.length) '0' ++ ds)

/-- The call `x.toFixed(2)` for a number below `10 ^ 21` in magnitude: the value
rounded to hundredths, halves upwards in magnitude. -/
def refToFixed2 : JsNum → String
  | JsNum.nan => "NaN"
  | JsNum.posInf => "Infinity"
  | JsNum.negInf => "-Infinity"
  | JsNum.fin q =>
    let n : Nat := (2 * q.num.natAbs * 100 + q.den) / (2 * q.den)
    (if q.num < 0 then "-" else "") ++ toString (n / 100) ++ "." ++ padDigits 2 (n % 100)

/-- The reference record. -/
def Builtins.reference : Builtins :=
  { parseFloat := refParseFloat
    stringToNumber := refStringToNumber
    getTime := refGetTime
    localeCompare := refLocaleCompare
    intlFormat := fun _ => none
    toFixed2 := refToFixed2 }

/-! ## Sorting -/

/-- The method `Array.prototype.sort(compare)`.  A comparator result of `NaN`
(`none`) counts as `0`.  The sort is stable, so for a comparator that is
consistent on the elements of the array the result is the one stable insertion
produces: each element goes before the first later element it does not have to
follow. -/
def arraySort {α : Type} (compare : α → α → Option Int) (l : List α) : List α :=
  l.insertionSort (fun a b => (compare a b).getD 0 ≤ 0)

/-- The expression `new Date(s.start_time).getTime()` of `sortedSlots`:
`new Date(null)` is the epoch, time `0`. -/
def SlotPlanner.startTime (js : Builtins) (s : SlotPlanner.Slot) : Option Int :=
  match s.start_time with
  | none => some 0
  | some t => js.getTime t

/-- The comparator of `sortedSlots`: `bT - aT`, which is `NaN` when either time
is. -/
def SlotPlanner.compareSlots (js : Builtins) (a b : SlotPlanner.Slot) : Option Int :=
  match SlotPlanner.startTime js a, SlotPlanner.startTime js b with
  | some aT, some bT => some (bT - aT)
  | _, _ => none

/-- The memo `sortedSlots`. -/
def SlotPlanner.sortedSlots (js : Builtins) (slots : List SlotPlanner.Slot) :
    List SlotPlanner.Slot :=
  arraySort (SlotPlanner.compareSlots js) slots

/-! ## ExpenseSplitter -/

namespace ExpenseSplitter

/-- An item of `expenses.items` in the summary payload. -/
structure Expense where
  expense_id : Option JsId
  user_id : Option String
  amount : JsVal
  notes : String
  created_at : Option String
  deriving DecidableEq

/-- The expression `String(a?.expense_id ?? "")`. -/
def idString (e : Expense) : String :=
  match e.expense_id with
  | none => ""
  | some (JsId.num n) => toString n
  | some (JsId.str s) => s

/-- The expression `a?.created_at ? new Date(a.created_at).getTime() : 0`: a
missing or empty `created_at` counts as time `0`; `none` is `NaN`. -/
def time (js : Builtins) (e : Expense) : Option Int :=
  match e.created_at with
  | none => some 0
  | some t => if t = "" then some 0 else js.getTime t

/-- The comparator of `sortedExpenses`.  `aT !== bT` holds when either time is
`NaN`, and the result `bT - aT` is then `NaN`. -/
def compareExpenses (js : Builtins) (a b : Expense) : Option Int :=
  match time js a, time js b with
  | some aT, some bT =>
    if aT ≠ bT then some (bT - aT)
    else some (js.localeCompare (idString b) (idString a))
  | _, _ => none

/-- The memo `sortedExpenses`. -/
def sortedExpenses (js : Builtins) (expenses : List Expense) : List Expense :=
  arraySort (compareExpenses js) expenses

/-- The state `newExpense`.  The two inputs store strings (`e.target.value`); the
weight is whatever value the field holds. -/
structure Draft where
  amount : String
  notes : String
  weight : JsVal
  deriving DecidableEq

/-- The initial and the reset value of `newExpense`. -/
def emptyDraft : Draft := { amount := "", notes := "", weight := JsVal.num (JsNum.fin 1) }

/-- The body of `POST /events/{eventId}/expense`. -/
structure ExpenseBody where
  user_id : String
  amount : JsNum
  notes : String
  weight : JsNum
  deriving DecidableEq

/-- The object `response.data.expenses` of a summary response, each field
possibly missing. -/
structure ExpensesPayload where
  items : Option (List Expense)
  balances : Option (List (String × JsVal))
  total : Option JsNum
  deriving DecidableEq

/-- How an awaited summary request ends: with the `expenses` object of the
response (`none` when the response has none), or rejected. -/
inductive SummaryOutcome where
  | response (expenses : Option ExpensesPayload)
  | failed
  deriving DecidableEq

/-- The component: its props, its React state, and the observable effects
(requests issued, `alert` messages shown). -/
structure State where
  eventId : String
  userId : String
  expenses : List Expense
  balances : List (String × JsVal)
  totalAmount : JsNum
  newExpense : Draft
  loading : Bool
  isFetching : Bool
  error : Option String
  posted : List ExpenseBody
  summaryGets : Nat
  alerts : List String
  deriving DecidableEq

/-- The constant `amt`: `parseFloat(String(newExpense.amount).replace(",", "."))`. -/
def amt (js : Builtins) (d : Draft) : JsNum := js.parseFloat (replaceComma d.amount)

/-- The constant `notes`: `String(newExpense.notes || "").trim()`. -/
def trimmedNotes (d : Draft) : String := jsTrim d.notes

/-- The constant `weight`: `Number(newExpense.weight)`. -/
def weight (js : Builtins) (d : Draft) : JsNum := toNumber js d.weight

/-- The memo `canSubmit`. -/
def canSubmit (js : Builtins) (st : State) : Bool :=
  !st.loading &&
  !st.isFetching &&
  !(amt js st.newExpense).isNaN &&
  JsNum.lt (JsNum.fin 0) (amt js st.newExpense) &&
  decide (0 < (trimmedNotes st.newExpense).length) &&
  (weight js st.newExpense).isFinite

/-- The guard of `handleAddExpense`: `!notes || Number.isNaN(amt) || amt <= 0`. -/
def rejects (js : Builtins) (d : Draft) : Bool :=
  decide (trimmedNotes d = "") || (amt js d).isNaN || JsNum.le (amt js d) (JsNum.fin 0)

/-- The message of the `alert` of the guard. -/
def invalidNotice : String := "Lütfen geçerli bir tutar ve açıklama girin!"

/-- The banner text set when the summary request fails. -/
def fetchErrorText : String := "Veriler alınırken bir sorun oluştu. Lütfen tekrar deneyin."

/-- The banner text set when the expense request fails. -/
def addErrorText : String := "Gider eklenirken bir hata oluştu. Lütfen tekrar deneyin."

/-- The body `handleAddExpense` posts. -/
def expenseBody (js : Builtins) (st : State) : ExpenseBody :=
  { user_id := st.userId
    amount := amt js st.newExpense
    notes := trimmedNotes st.newExpense
    weight := if (weight js st.newExpense).isFinite = true then weight js st.newExpense
      else JsNum.fin 1 }

/-- The function `fetchExpenses` up to its `await`. -/
def fetchExpenses (st : State) : State :=
  { st with isFetching := true, error := none, summaryGets := st.summaryGets + 1 }

/-- The function `fetchExpenses` after its `await`, `finally` block included. -/
def fetchExpensesSettled (o : SummaryOutcome) (st : State) : State :=
  match o with
  | SummaryOutcome.response expenses =>
    let exp : ExpensesPayload :=
      expenses.getD { items := none, balances := none, total := none }
    { st with
      expenses := exp.items.getD []
      balances := exp.balances.getD []
      totalAmount := (exp.total.getD (JsNum.fin 0)).orZero
      isFetching := false }
  | SummaryOutcome.failed => { st with error := some fetchErrorText, isFetching := false }

/-- The function `handleAddExpense` up to its first `await`: the guard, then
`setLoading(true)`, `setError(null)` and the request. -/
def handleAddExpense (js : Builtins) (st : State) : State :=
  if rejects js st.newExpense = true then
    { st with alerts := st.alerts ++ [invalidNotice] }
  else
    { st with
      loading := true
      error := none
      posted := st.posted ++ [expenseBody js st] }

/-- The `try` block of `handleAddExpense` after a resolved request, up to
`await fetchExpenses()`: the draft is reset and the refresh is started. -/
def handleAddExpenseThen (st : State) : State :=
  fetchExpenses { st with newExpense := emptyDraft }

/-- The rest of `handleAddExpense` once the awaited `fetchExpenses()` has
settled (it never rejects: it catches its own failure): the `finally` block. -/
def handleAddExpenseRefreshed (o : SummaryOutcome) (st : State) : State :=
  { fetchExpensesSettled o st with loading := false }

/-- The `catch` block of `handleAddExpense`, followed by the `finally` block. -/
def handleAddExpenseCatch (st : State) : State :=
  { st with error := some addErrorText, loading := false }

/-- The function `getBalanceClass`. -/
def getBalanceClass (balance : JsNum) : String :=
  if JsNum.lt (JsNum.fin 0) balance = true then "positive"
  else if JsNum.lt balance (JsNum.fin 0) = true then "negative"
  else "neutral"

/-- The function `formatCurrency`: the locale-aware format of
`Number(amount) || 0`, and when that throws, `Number(amount || 0).toFixed(2)`
followed by the currency sign. -/
def formatCurrency (js : Builtins) (amount : JsVal) : String :=
  match js.intlFormat (toNumber js amount).orZero with
  | some text => text
  | none =>
    js.toFixed2 (toNumber js (if amount.truthy = true then amount else JsVal.num (JsNum.fin 0)))
      ++ " ₺"

/-- The function `getBalanceText`. -/
def getBalanceText (js : Builtins) (balance : JsNum) : String :=
  if JsNum.lt (JsNum.fin 0) balance = true then
    "+" ++ formatCurrency js (JsVal.num balance) ++ " alacak"
  else if JsNum.lt balance (JsNum.fin 0) = true then
    formatCurrency js (JsVal.num balance.abs) ++ " verecek"
  else formatCurrency js (JsVal.num (JsNum.fin 0)) ++ " eşit"

/-- An expense with the given id and creation date, and nothing else set. -/
def expenseOf (expenseId : String) (createdAt : Option String) : Expense :=
  { expense_id := some (JsId.str expenseId), user_id := none, amount := JsVal.undefined,
    notes := "", created_at := createdAt }

/-- A mounted component holding the given draft, with the initial summary
already loaded and no request in flight. -/
def stateOf (draft : Draft) : State :=
  { eventId := "e1", userId := "u1", expenses := [], balances := [],
    totalAmount := JsNum.fin 0, newExpense := draft, loading := false,
    isFetching := false, error := none, posted := [], summaryGets := 0, alerts := [] }

end ExpenseSplitter

/-! ## Derived values of PollVoting, and what the claims compare with -/

/-- The memo `totalVotes`: `choices.reduce((sum, c) => sum + (c.votes || 0), 0)`. -/
def PollVoting.totalVotes (choices : List PollVoting.PollChoice) : Int :=
  choices.foldl (fun sum c => jsAdd sum (orZero c.votes)) 0

/-- The callback of the `reduce` in `winningChoice`:
`(max, c) => (c.votes > (max?.votes || 0) ? c : max)`. -/
def PollVoting.winningStep (max c : PollVoting.PollChoice) : PollVoting.PollChoice :=
  if orZero max.votes < c.votes then c else max

/-- The memo `winningChoice`: `null` for an empty list, otherwise the `reduce`
over the whole list that starts from `choices[0]`. -/
def PollVoting.winningChoice (choices : List PollVoting.PollChoice) :
    Option PollVoting.PollChoice :=
  match choices with
  | [] => none
  | first :: _ => some (choices.foldl PollVoting.winningStep first)

/-- The optimistic update of a slot as the specification words it: the count of
the new choice goes up by one, the count of a differing prior selection goes
down by one but not below 0, everything else stays. -/
def SlotPlanner.specApply (prior : Option SlotPlanner.VoteChoice) (slotId : String)
    (choice : SlotPlanner.VoteChoice) (s : SlotPlanner.Slot) : SlotPlanner.Slot :=
  if s.slot_id = slotId then
    { s with
      yes_votes :=
        if choice = SlotPlanner.VoteChoice.yes then s.yes_votes + 1
        else if prior = some SlotPlanner.VoteChoice.yes then max 0 (s.yes_votes - 1)
        else s.yes_votes
      no_votes :=
        if choice = SlotPlanner.VoteChoice.no then s.no_votes + 1
        else if prior = some SlotPlanner.VoteChoice.no then max 0 (s.no_votes - 1)
        else s.no_votes }
  else s

/-- The optimistic update of a poll choice as the specification words it: the
voted choice gains a vote, the prior selection loses one but not below 0, every
other choice stays. -/
def PollVoting.specApply (prior : JsId) (choiceId : JsId)
    (c : PollVoting.PollChoice) : PollVoting.PollChoice :=
  if c.choice_id = choiceId then { c with votes := c.votes + 1 }
  else if c.choice_id = prior then { c with votes := max 0 (c.votes - 1) }
  else c

/-- The selection a summary response carries for a slot id: the `user_choice` of
the last fetched slot with that id that has one. -/
def SlotPlanner.fetchedChoice (fetched : List SlotPlanner.Slot) (slotId : String) :
    Option SlotPlanner.VoteChoice :=
  (fetched.reverse.find?
    (fun s => decide (s.slot_id = slotId) && (SlotPlanner.userChoice s).isSome)).bind
    SlotPlanner.userChoice

/-- The loop `fetched.forEach(...)` of `fetchSlots`, run on a map `mv`: every
slot that carries a `user_choice` of `"yes"` or `"no"` is assigned at its
`slot_id`. -/
def SlotPlanner.collectChoices (mv : SlotPlanner.VoteMap)
    (fetched : List SlotPlanner.Slot) : SlotPlanner.VoteMap :=
  fetched.foldl
    (fun (mv : SlotPlanner.VoteMap) (s : SlotPlanner.Slot) =>
      match SlotPlanner.userChoice s with
      | some c => mv.set s.slot_id c
      | none => mv) mv

/-- The attribute `maxLength={120}` of the notes input. -/
def ExpenseSplitter.notesMaxLength : Nat := 120

/-- The property `length` of a string: its number of UTF-16 code units. -/
def jsLength (s : String) : Nat :=
  (s.toList.map (fun c => if c.toNat < 65536 then 1 else 2)).sum

/-! ## Theorems -/

/-! ### Binary64 rounding of integers -/

theorem ulpAux_spec (fuel : Nat) : ∀ (u n k : Nat), u = 2 ^ k →
    n < twoPow53 * u * 2 ^ fuel → (u = 1 ∨ twoPow53 * u ≤ 2 * n) →
    ∃ j, ulpAux fuel u n = 2 ^ j ∧ n < twoPow53 * 2 ^ j ∧
      (2 ^ j = 1 ∨ twoPow53 * 2 ^ j ≤ 2 * n) := by
  induction fuel with
  | zero =>
    intro u n k hk hlt hge
    refine ⟨k, hk, ?_, ?_⟩
    · rw [← hk]
      simpa using hlt
    · rw [← hk]
      exact hge
  | succ fuel ih =>
    intro u n k hk hlt hge
    unfold ulpAux
    by_cases h : n < twoPow53 * u
    · rw [if_pos h]
      refine ⟨k, hk, ?_, ?_⟩
      · rw [← hk]
        exact h
      · rw [← hk]
        exact hge
    · rw [if_neg h]
      refine ih (2 * u) n (k + 1) ?_ ?_ ?_
      · rw [hk, pow_succ]
        ring
      · have : twoPow53 * (2 * u) * 2 ^ fuel = twoPow53 * u * 2 ^ (fuel + 1) := by
          rw [pow_succ]
          ring
        rw [this]
        exact hlt
      · right
        have h2 : twoPow53 * u ≤ n := Nat.le_of_not_lt h
        calc twoPow53 * (2 * u) = 2 * (twoPow53 * u) := by ring
          _ ≤ 2 * n := Nat.mul_le_mul_left 2 h2

theorem ulp_spec (n : Nat) :
    ∃ j, ulp n = 2 ^ j ∧ n < twoPow53 * 2 ^ j ∧ (2 ^ j = 1 ∨ twoPow53 * 2 ^ j ≤ 2 * n) := by
  unfold ulp
  refine ulpAux_spec n 1 n 0 (by simp) ?_ (Or.inl rfl)
  have h1 : n < 2 ^ n := Nat.lt_two_pow n
  have h2 : 2 ^ n ≤ twoPow53 * 1 * 2 ^ n := by
    have : 1 ≤ twoPow53 * 1 := by decide
    calc 2 ^ n = 1 * 2 ^ n := by ring
      _ ≤ twoPow53 * 1 * 2 ^ n := Nat.mul_le_mul_right _ this
  omega

theorem ulp_unique (n j k : Nat)
    (hj1 : n < twoPow53 * 2 ^ j) (hj2 : 2 ^ j = 1 ∨ twoPow53 * 2 ^ j ≤ 2 * n)
    (hk1 : n < twoPow53 * 2 ^ k) (hk2 : 2 ^ k = 1 ∨ twoPow53 * 2 ^ k ≤ 2 * n) :
    2 ^ j = 2 ^ k := by
  have key : ∀ a b : Nat, a < b → n < twoPow53 * 2 ^ a →
      (2 ^ b = 1 ∨ twoPow53 * 2 ^ b ≤ 2 * n) → False := by
    intro a b hab ha hb
    have h1 : 2 ^ (a + 1) ≤ 2 ^ b := Nat.pow_le_pow_right (by norm_num) hab
    have h2 : 2 ^ (a + 1) = 2 * 2 ^ a := by rw [pow_succ]; ring
    have h3 : 0 < 2 ^ a := Nat.two_pow_pos a
    have h4 : twoPow53 * (2 * 2 ^ a) ≤ twoPow53 * 2 ^ b := by
      rw [← h2]
      exact Nat.mul_le_mul_left _ h1
    rcases hb with hb | hb
    · omega
    · have h5 : twoPow53 * (2 * 2 ^ a) = 2 * (twoPow53 * 2 ^ a) := by ring
      omega
  rcases Nat.lt_trichotomy j k with h | h | h
  · exact absurd (key j k h hj1 hk2) id
  · rw [h]
  · exact absurd (key k j h hk1 hj2) id

theorem ulp_eq_of_bounds (n u : Nat) (hu : ∃ k, u = 2 ^ k)
    (h1 : n < twoPow53 * u) (h2 : u = 1 ∨ twoPow53 * u ≤ 2 * n) : ulp n = u := by
  obtain ⟨k, rfl⟩ := hu
  obtain ⟨j, hj, hj1, hj2⟩ := ulp_spec n
  rw [hj]
  exact ulp_unique n j k hj1 hj2 h1 h2


theorem roundToMultiple_of_dvd (u n : Nat) (hu : 0 < u) (h : u ∣ n) :
    roundToMultiple u n = n := by
  unfold roundToMultiple
  have hm : n % u = 0 := Nat.mod_eq_zero_of_dvd h
  simp only [hm, Nat.mul_zero, hu, if_true]
  exact Nat.div_mul_cancel h

theorem ulp_pos (n : Nat) : 0 < ulp n := by
  obtain ⟨j, hj, _, _⟩ := ulp_spec n
  rw [hj]
  exact Nat.two_pow_pos j

theorem ulp_of_lt (n : Nat) (h : n < twoPow53) : ulp n = 1 :=
  ulp_eq_of_bounds n 1 ⟨0, rfl⟩ (by omega) (Or.inl rfl)

theorem f64RoundNat_of_lt (n : Nat) (h : n < twoPow53) : f64RoundNat n = n := by
  unfold f64RoundNat
  rw [ulp_of_lt n h]
  exact roundToMultiple_of_dvd 1 n (by norm_num) (one_dvd n)

theorem f64RoundNat_of_le (n : Nat) (h : n ≤ twoPow53) : f64RoundNat n = n := by
  rcases Nat.lt_or_eq_of_le h with h | h
  · exact f64RoundNat_of_lt n h
  · subst h
    decide

/-- Above `2 ^ 53` the spacing is even. -/
theorem ulp_even_of_ge (n : Nat) (h : twoPow53 ≤ n) :
    ∃ w, ulp n = 2 * w ∧ 0 < w ∧ (∃ k, w = 2 ^ k) ∧ n < twoPow53 * (2 * w) ∧
      twoPow53 * w ≤ n := by
  obtain ⟨j, hj, hj1, hj2⟩ := ulp_spec n
  rcases j with _ | j
  · simp only [pow_zero, Nat.mul_one] at hj1
    omega
  · refine ⟨2 ^ j, by rw [hj, pow_succ]; ring, Nat.two_pow_pos j, ⟨j, rfl⟩, ?_, ?_⟩
    · have : twoPow53 * (2 * 2 ^ j) = twoPow53 * 2 ^ (j + 1) := by rw [pow_succ]; ring
      omega
    · have h1 : 2 ^ (j + 1) = 2 * 2 ^ j := by rw [pow_succ]; ring
      have h2 : twoPow53 * 2 ^ (j + 1) = 2 * (twoPow53 * 2 ^ j) := by rw [h1]; ring
      have h3 : 0 < 2 ^ j := Nat.two_pow_pos j
      rcases hj2 with hj2 | hj2
      · omega
      · omega


theorem roundToMultiple_dvd (u n : Nat) : u ∣ roundToMultiple u n := by
  unfold roundToMultiple
  simp only []
  split_ifs <;> exact Dvd.intro_left _ rfl

theorem ulp_dvd_of_fixed (n : Nat) (h : f64RoundNat n = n) : ulp n ∣ n := by
  have := roundToMultiple_dvd (ulp n) n
  unfold f64RoundNat at h
  rwa [h] at this

theorem f64RoundNat_of_dvd (n : Nat) (h : ulp n ∣ n) : f64RoundNat n = n :=
  roundToMultiple_of_dvd (ulp n) n (ulp_pos n) h

/-- A multiple of a power of two `u` between `2 ^ 52 * u` and `2 ^ 53 * u` is a
binary64 number. -/
theorem f64RoundNat_of_multiple (m u : Nat) (hu : ∃ k, u = 2 ^ k) (hd : u ∣ m)
    (hlo : u = 1 ∨ twoPow53 * u ≤ 2 * m) (hhi : m ≤ twoPow53 * u) : f64RoundNat m = m := by
  rcases Nat.lt_or_eq_of_le hhi with h | h
  · apply f64RoundNat_of_dvd
    rw [ulp_eq_of_bounds m u hu h hlo]
    exact hd
  · obtain ⟨k, hk⟩ := hu
    have hpos : 0 < u := by rw [hk]; exact Nat.two_pow_pos k
    apply f64RoundNat_of_dvd
    have h2 : ulp m = 2 * u := by
      apply ulp_eq_of_bounds m (2 * u) ⟨k + 1, by rw [hk, pow_succ]; ring⟩
      · unfold twoPow53 at *
        omega
      · right
        unfold twoPow53 at *
        omega
    rw [h2, h]
    refine ⟨4503599627370496, ?_⟩
    unfold twoPow53
    ring

theorem f64RoundNat_idem (n : Nat) : f64RoundNat (f64RoundNat n) = f64RoundNat n := by
  by_cases hn : n < twoPow53
  · rw [f64RoundNat_of_lt n hn]
    exact f64RoundNat_of_lt n hn
  · obtain ⟨w, hu, hw, ⟨k, hk⟩, hlt, hge⟩ := ulp_even_of_ge n (Nat.le_of_not_lt hn)
    have hq1 : 4503599627370496 ≤ n / (2 * w) := by
      rw [Nat.le_div_iff_mul_le (by omega)]
      unfold twoPow53 at hge
      omega
    have hq2 : n / (2 * w) < twoPow53 := by
      rw [Nat.div_lt_iff_lt_mul (by omega)]
      exact hlt
    have hcase : f64RoundNat n = n / (2 * w) * (2 * w) ∨
        f64RoundNat n = (n / (2 * w) + 1) * (2 * w) := by
      unfold f64RoundNat roundToMultiple
      rw [hu]
      simp only []
      split_ifs
      · left; rfl
      · right; rfl
      · left; rfl
      · right; rfl
    have hpow : ∃ j, 2 * w = 2 ^ j := ⟨k + 1, by rw [hk, pow_succ]; ring⟩
    generalize n / (2 * w) = q at hq1 hq2 hcase
    rcases hcase with hc | hc
    · rw [hc]
      apply f64RoundNat_of_multiple (q * (2 * w)) (2 * w) hpow (Dvd.intro_left _ rfl)
      · right
        have : 4503599627370496 * (2 * w) ≤ q * (2 * w) := Nat.mul_le_mul_right _ hq1
        unfold twoPow53
        omega
      · exact Nat.mul_le_mul_right _ (Nat.le_of_lt hq2)
    · rw [hc]
      apply f64RoundNat_of_multiple ((q + 1) * (2 * w)) (2 * w) hpow (Dvd.intro_left _ rfl)
      · right
        have : 4503599627370496 * (2 * w) ≤ (q + 1) * (2 * w) :=
          Nat.mul_le_mul_right _ (by omega)
        unfold twoPow53
        omega
      · exact Nat.mul_le_mul_right _ hq2

/-- Rounding does not go below `2 ^ 53` from above it. -/
theorem f64RoundNat_pos (n : Nat) (h : 1 ≤ n) : 1 ≤ f64RoundNat n := by
  by_cases hn : n < twoPow53
  · rw [f64RoundNat_of_lt n hn]
    exact h
  · obtain ⟨w, hu, hw, _, hlt, hge⟩ := ulp_even_of_ge n (Nat.le_of_not_lt hn)
    have hq1 : 1 ≤ n / (2 * w) := by
      rw [Nat.le_div_iff_mul_le (by omega)]
      unfold twoPow53 at hge
      omega
    unfold f64RoundNat roundToMultiple
    rw [hu]
    simp only []
    have h1 : 1 ≤ n / (2 * w) * (2 * w) := Nat.mul_pos hq1 (by omega)
    have h2 : n / (2 * w) * (2 * w) ≤ (n / (2 * w) + 1) * (2 * w) :=
      Nat.mul_le_mul_right _ (by omega)
    split_ifs <;> omega

/-- One above a binary64 number that is a multiple of 4, from `2 ^ 53` on, rounds
back to it. -/
theorem f64RoundNat_succ_of_fixed (f : Nat) (hf : twoPow53 ≤ f) (h4 : f % 4 = 0)
    (hfix : f64RoundNat f = f) : f64RoundNat (f + 1) = f := by
  obtain ⟨w, hu, hw, ⟨k, hk⟩, hlt, hge⟩ := ulp_even_of_ge f hf
  have hd : 2 * w ∣ f := hu ▸ ulp_dvd_of_fixed f hfix
  obtain ⟨t, ht⟩ := hd
  have hulp : ulp (f + 1) = 2 * w := by
    apply ulp_eq_of_bounds (f + 1) (2 * w) ⟨k + 1, by rw [hk, pow_succ]; ring⟩
    · unfold twoPow53 at *
      omega
    · right
      unfold twoPow53 at *
      omega
  have hdiv : (f + 1) / (2 * w) = t := by
    rw [ht, Nat.add_comm, Nat.add_mul_div_left 1 t (by omega : 0 < 2 * w),
      Nat.div_eq_of_lt (by omega : 1 < 2 * w), Nat.zero_add]
  have hmod : (f + 1) % (2 * w) = 1 := by
    rw [ht, Nat.add_comm, Nat.add_mul_mod_self_left, Nat.mod_eq_of_lt (by omega : 1 < 2 * w)]
  unfold f64RoundNat roundToMultiple
  rw [hulp]
  simp only [hdiv, hmod]
  have htw : t * (2 * w) = f := by rw [ht]; ring
  by_cases hw1 : w = 1
  · subst hw1
    have hte : t % 2 = 0 := by omega
    simp only [Nat.mul_one, Nat.lt_irrefl, if_false, hte, if_true]
    omega
  · rw [if_pos (by omega)]
    exact htw

/-- One below a binary64 number that is a multiple of 4, above `2 ^ 53`, rounds
back to it. -/
theorem f64RoundNat_pred_of_fixed (f : Nat) (hf : twoPow53 < f) (h4 : f % 4 = 0)
    (hfix : f64RoundNat f = f) : f64RoundNat (f - 1) = f := by
  obtain ⟨w, hu, hw, ⟨k, hk⟩, hlt, hge⟩ := ulp_even_of_ge f (Nat.le_of_lt hf)
  have hd : 2 * w ∣ f := hu ▸ ulp_dvd_of_fixed f hfix
  -- the spacing `u` just below `f`
  have hex : ∃ u, ulp (f - 1) = u ∧ 2 ≤ u ∧ u ∣ f := by
    by_cases hb : f = twoPow53 * w
    · rcases k with _ | k
      · simp only [pow_zero] at hk
        subst hk
        omega
      · refine ⟨w, ?_, ?_, ?_⟩
        · apply ulp_eq_of_bounds (f - 1) w ⟨k + 1, hk⟩
          · omega
          · right
            unfold twoPow53 at *
            omega
        · have : 0 < 2 ^ k := Nat.two_pow_pos k
          rw [hk, pow_succ]
          omega
        · exact ⟨twoPow53, by rw [hb]; ring⟩
    · refine ⟨2 * w, ?_, by omega, hd⟩
      apply ulp_eq_of_bounds (f - 1) (2 * w) ⟨k + 1, by rw [hk, pow_succ]; ring⟩
      · omega
      · right
        unfold twoPow53 at *
        omega
  obtain ⟨u, hulp, hu2, t, ht⟩ := hex
  have htpos : 1 ≤ t := by
    rcases t with _ | t
    · simp at ht
      unfold twoPow53 at hf
      omega
    · omega
  obtain ⟨s, rfl⟩ : ∃ s, t = s + 1 := ⟨t - 1, by omega⟩
  have hf1 : f - 1 = (u - 1) + u * s := by
    rw [ht, Nat.mul_add, Nat.mul_one]
    omega
  have hdiv : (f - 1) / u = s := by
    rw [hf1, Nat.add_mul_div_left (u - 1) s (by omega : 0 < u),
      Nat.div_eq_of_lt (by omega : u - 1 < u), Nat.zero_add]
  have hmod : (f - 1) % u = u - 1 := by
    rw [hf1, Nat.add_mul_mod_self_left, Nat.mod_eq_of_lt (by omega : u - 1 < u)]
  unfold f64RoundNat roundToMultiple
  rw [hulp]
  simp only [hdiv, hmod]
  have htw : (s + 1) * u = f := by rw [ht]; ring
  by_cases hu1 : u = 2
  · subst hu1
    have hso : s % 2 = 1 := by omega
    simp only [Nat.add_one_sub_one, Nat.mul_one, Nat.lt_irrefl, if_false, hso]
    simp only [Nat.one_ne_zero, if_false]
    exact htw
  · rw [if_neg (by omega), if_pos (by omega)]
    exact htw

/-- Two above a binary64 number from `2 ^ 53` on that is not a multiple of 4 is a
binary64 number again. -/
theorem f64RoundNat_add_two_of_fixed (f : Nat) (hf : twoPow53 ≤ f) (h4 : f % 4 = 2)
    (hfix : f64RoundNat f = f) : f64RoundNat (f + 2) = f + 2 := by
  obtain ⟨w, hu, hw, ⟨k, hk⟩, hlt, hge⟩ := ulp_even_of_ge f hf
  have hd : 2 * w ∣ f := hu ▸ ulp_dvd_of_fixed f hfix
  obtain ⟨t, ht⟩ := hd
  have hw1 : w = 1 := by
    rcases k with _ | k
    · simpa using hk
    · exfalso
      rw [pow_succ] at hk
      rw [hk] at ht
      have : f = 4 * (2 ^ k * t) := by rw [ht]; ring
      omega
  subst hw1
  apply f64RoundNat_of_multiple (f + 2) 2 ⟨1, rfl⟩ ⟨t + 1, by omega⟩
  · right
    unfold twoPow53 at *
    omega
  · unfold twoPow53 at *
    omega

/-- The chain `+ 1`, `- 1`, `+ 1` on a binary64 number ends where the first `+ 1`
ended. -/
theorem f64RoundNat_inc_dec_inc (d : Nat) (hd : f64RoundNat d = d) :
    f64RoundNat (f64RoundNat (f64RoundNat (d + 1) - 1) + 1) = f64RoundNat (d + 1) := by
  by_cases hsmall : d < twoPow53
  · rw [f64RoundNat_of_le (d + 1) (by omega), Nat.add_sub_cancel, hd]
    exact f64RoundNat_of_le (d + 1) (by omega)
  · have hge : twoPow53 ≤ d := Nat.le_of_not_lt hsmall
    obtain ⟨w, hu, hw, _, _, _⟩ := ulp_even_of_ge d hge
    have hdv : 2 * w ∣ d := hu ▸ ulp_dvd_of_fixed d hd
    have heven : d % 4 = 0 ∨ d % 4 = 2 := by
      obtain ⟨t, ht⟩ := hdv
      have : d = 2 * (w * t) := by rw [ht]; ring
      omega
    rcases heven with h4 | h4
    · rw [f64RoundNat_succ_of_fixed d hge h4 hd]
      rcases Nat.lt_or_eq_of_le hge with hgt | heq
      · rw [f64RoundNat_pred_of_fixed d hgt h4 hd, f64RoundNat_succ_of_fixed d hge h4 hd]
      · subst heq
        decide
    · have hfix2 := f64RoundNat_add_two_of_fixed d hge h4 hd
      have h1 : f64RoundNat (d + 1) = d + 2 := by
        have := f64RoundNat_pred_of_fixed (d + 2) (by omega) (by omega) hfix2
        simpa using this
      rw [h1]
      have h2 : d + 2 - 1 = d + 1 := by omega
      rw [h2, h1]
      exact f64RoundNat_succ_of_fixed (d + 2) (by omega) (by omega) hfix2


/-! ### Binary64 arithmetic on integers -/

theorem f64Round_natCast (n : Nat) : f64Round (n : Int) = (f64RoundNat n : Int) := by
  unfold f64Round
  rw [if_pos (Int.ofNat_nonneg n), Int.toNat_ofNat]

theorem f64Round_nonneg (x : Int) (h : 0 ≤ x) : 0 ≤ f64Round x := by
  unfold f64Round
  rw [if_pos h]
  exact Int.ofNat_nonneg _

theorem f64Round_idem (x : Int) : f64Round (f64Round x) = f64Round x := by
  by_cases h : 0 ≤ x
  · obtain ⟨n, rfl⟩ := Int.eq_ofNat_of_zero_le h
    rw [f64Round_natCast, f64Round_natCast, f64RoundNat_idem]
  · unfold f64Round
    rw [if_neg h]
    by_cases h0 : f64RoundNat (-x).toNat = 0
    · simp [h0]
      decide
    · have hpos : ¬ (0 : Int) ≤ -(f64RoundNat (-x).toNat : Int) := by omega
      rw [if_neg hpos]
      simp only [neg_neg, Int.toNat_ofNat, f64RoundNat_idem]

/-- Up to `2 ^ 53` in magnitude an integer is a binary64 number. -/
theorem f64Round_of_safe (x : Int) (h1 : -9007199254740992 ≤ x)
    (h2 : x ≤ 9007199254740992) : f64Round x = x := by
  unfold f64Round
  by_cases h : 0 ≤ x
  · rw [if_pos h, f64RoundNat_of_le x.toNat (by unfold twoPow53; omega)]
    omega
  · rw [if_neg h, f64RoundNat_of_le (-x).toNat (by unfold twoPow53; omega)]
    omega

theorem jsAdd_one_of_safe (x : Int) (h1 : -9007199254740992 ≤ x)
    (h2 : x < 9007199254740992) : jsAdd x 1 = x + 1 := by
  unfold jsAdd
  rw [f64Round_of_safe x h1 (by omega), f64Round_of_safe 1 (by omega) (by omega),
    f64Round_of_safe (x + 1) (by omega) (by omega)]

theorem jsSub_one_of_safe (x : Int) (h1 : -9007199254740992 < x)
    (h2 : x ≤ 9007199254740992) : jsSub x 1 = x - 1 := by
  unfold jsSub
  rw [f64Round_of_safe x (by omega) h2, f64Round_of_safe 1 (by omega) (by omega),
    f64Round_of_safe (x - 1) (by omega) (by omega)]

theorem jsAdd_one_natCast (n : Nat) :
    jsAdd (n : Int) 1 = (f64RoundNat (f64RoundNat n + 1) : Int) := by
  unfold jsAdd
  rw [f64Round_of_safe 1 (by omega) (by omega), f64Round_natCast]
  exact f64Round_natCast (f64RoundNat n + 1)

theorem jsAdd_one_pos (x : Int) (h : 0 ≤ x) : 1 ≤ jsAdd x 1 := by
  obtain ⟨n, rfl⟩ := Int.eq_ofNat_of_zero_le h
  rw [jsAdd_one_natCast]
  have := f64RoundNat_pos (f64RoundNat n + 1) (by omega)
  omega

theorem jsSub_one_natCast (n : Nat) (h : 1 ≤ f64RoundNat n) :
    jsSub (n : Int) 1 = (f64RoundNat (f64RoundNat n - 1) : Int) := by
  unfold jsSub
  rw [f64Round_of_safe 1 (by omega) (by omega), f64Round_natCast]
  have : ((f64RoundNat n : Nat) : Int) - 1 = ((f64RoundNat n - 1 : Nat) : Int) := by omega
  rw [this]
  exact f64Round_natCast (f64RoundNat n - 1)

/-- Voting a count, taking the vote back and voting again ends at the count of
the first vote, at every magnitude. -/
theorem jsAdd_jsSub_jsAdd (x : Int) (h : 0 ≤ x) :
    jsAdd (mathMax0 (jsSub (jsAdd x 1) 1)) 1 = jsAdd x 1 := by
  obtain ⟨n, rfl⟩ := Int.eq_ofNat_of_zero_le h
  have hd := f64RoundNat_idem n
  have hv1 : 1 ≤ f64RoundNat (f64RoundNat n + 1) :=
    f64RoundNat_pos (f64RoundNat n + 1) (by omega)
  have hvfix := f64RoundNat_idem (f64RoundNat n + 1)
  rw [jsAdd_one_natCast, jsSub_one_natCast _ (by rw [hvfix]; exact hv1), hvfix]
  have hnn : (0 : Int) ≤ (f64RoundNat (f64RoundNat (f64RoundNat n + 1) - 1) : Int) :=
    Int.ofNat_nonneg _
  have hm : mathMax0 (f64RoundNat (f64RoundNat (f64RoundNat n + 1) - 1) : Int) =
      (f64RoundNat (f64RoundNat (f64RoundNat n + 1) - 1) : Int) := by
    unfold mathMax0
    rw [if_neg (by omega)]
  rw [hm, jsAdd_one_natCast, f64RoundNat_idem, f64RoundNat_inc_dec_inc _ hd]

/-! ### The optimistic update and its rollback -/

theorem orZero_eq (x : Int) : orZero x = x := by
  unfold orZero
  split_ifs with h
  · exact h.symm
  · rfl

theorem mathMax0_nonneg (x : Int) : 0 ≤ mathMax0 x := by
  unfold mathMax0
  split_ifs <;> omega

theorem mathMax0_of_nonneg {x : Int} (h : 0 ≤ x) : mathMax0 x = x := by
  unfold mathMax0
  split_ifs <;> omega

theorem map_eq_self_iff {α : Type} (f : α → α) (l : List α) :
    l.map f = l ↔ ∀ x ∈ l, f x = x := by
  induction l with
  | nil => simp
  | cons a t ih => simp [ih]

namespace SlotPlanner

/-- C1 (code defect, evaluated): slot `s1` has `yes_votes = 0` and `no_votes = 0`,
and the recorded selection for it is `yes`.  `handleVote("s1", "yes")` puts
`yes_votes` to 1 (the decrement of the prior selection is floored at 0, the
increment is not), and when the submission is rejected the `catch` block takes 1
off for the choice and adds 1 for the prior selection: the slot is left at
`yes_votes = 1`, not at the 0 of before the call.  A mounted component is in that
state after a summary with the slot at 0 and 0 and a first rejected `yes` vote;
a second rejected `yes` vote then leaves it at `yes_votes = 1`. -/
theorem handleVoteCatch_counts_not_restored :
    (run (mount "e1" "u1")
      [Event.summary [slotOf "s1" 0 0], Event.vote "s1" VoteChoice.yes,
        Event.settle 0 (Outcome.rejected { status := some 429 })]).slots =
      [slotOf "s1" 0 0] ∧
    (run (mount "e1" "u1")
      [Event.summary [slotOf "s1" 0 0], Event.vote "s1" VoteChoice.yes,
        Event.settle 0 (Outcome.rejected { status := some 429 })]).myVotes =
      [("s1", VoteChoice.yes)] ∧
    (run (mount "e1" "u1")
      [Event.summary [slotOf "s1" 0 0], Event.vote "s1" VoteChoice.yes,
        Event.settle 0 (Outcome.rejected { status := some 429 }),
        Event.vote "s1" VoteChoice.yes,
        Event.settle 0 (Outcome.rejected { status := some 429 })]).slots =
      [slotOf "s1" 1 0] ∧
    (stateOf [slotOf "s1" 0 0] [("s1", VoteChoice.yes)]).slots = [slotOf "s1" 0 0] ∧
    (handleVote "s1" VoteChoice.yes
      (stateOf [slotOf "s1" 0 0] [("s1", VoteChoice.yes)])).pending =
      [{ slotId := "s1", choice := VoteChoice.yes, myVotes := [("s1", VoteChoice.yes)] }] ∧
    (handleVote "s1" VoteChoice.yes
      (stateOf [slotOf "s1" 0 0] [("s1", VoteChoice.yes)])).slots = [slotOf "s1" 1 0] ∧
    (handleVoteCatch
      { slotId := "s1", choice := VoteChoice.yes, myVotes := [("s1", VoteChoice.yes)] }
      { status := some 429 }
      (handleVote "s1" VoteChoice.yes
        (stateOf [slotOf "s1" 0 0] [("s1", VoteChoice.yes)]))).slots =
      [slotOf "s1" 1 0] := by
  decide

theorem VoteMap.get_set_self (m : VoteMap) (slotId : String) (choice : VoteChoice) :
    (m.set slotId choice).get slotId = some choice := by
  induction m with
  | nil => simp [VoteMap.set, VoteMap.get]
  | cons kv rest ih =>
    rcases kv with ⟨k, v⟩
    by_cases h : k = slotId
    · simp [VoteMap.set, VoteMap.get, h]
    · simp [VoteMap.set, VoteMap.get, h, ih]

theorem VoteMap.set_of_get (m : VoteMap) (slotId : String) (v : VoteChoice)
    (h : m.get slotId = some v) : m.set slotId v = m := by
  induction m with
  | nil => simp [VoteMap.get] at h
  | cons kv rest ih =>
    rcases kv with ⟨k, w⟩
    by_cases hk : k = slotId
    · simp only [VoteMap.get, hk, if_true, Option.some.injEq] at h
      simp [VoteMap.set, hk, h]
    · simp only [VoteMap.get, hk, if_false] at h
      simp [VoteMap.set, hk, ih h]

/-- The selection "rollback" of the `catch` block returns its argument. -/
theorem restoreSelection_eq (prev : VoteMap) (slotId : String) :
    restoreSelection prev slotId = prev := by
  unfold restoreSelection
  cases h : prev.get slotId with
  | none => simp only [h]
  | some v => simpa only [h] using VoteMap.set_of_get prev slotId v h

/-- C3 (code defect, evaluated): with no prior selection for slot `s1`, a `yes`
vote whose submission is rejected with status 429 leaves `myVotes["s1"] = "yes"`,
although the counts are rolled back and the slot had no selection before the
call. -/
theorem handleVoteCatch_selection_kept :
    (stateOf [slotOf "s1" 0 0] []).myVotes.get "s1" = none ∧
    (handleVote "s1" VoteChoice.yes (stateOf [slotOf "s1" 0 0] [])).pending =
      [{ slotId := "s1", choice := VoteChoice.yes, myVotes := [] }] ∧
    (handleVoteCatch { slotId := "s1", choice := VoteChoice.yes, myVotes := [] }
      { status := some 429 }
      (handleVote "s1" VoteChoice.yes (stateOf [slotOf "s1" 0 0] []))).slots =
      [slotOf "s1" 0 0] ∧
    (handleVoteCatch { slotId := "s1", choice := VoteChoice.yes, myVotes := [] }
      { status := some 429 }
      (handleVote "s1" VoteChoice.yes (stateOf [slotOf "s1" 0 0] []))).myVotes.get "s1" =
      some VoteChoice.yes := by
  decide

end SlotPlanner

namespace PollVoting

/-- C2 (code defect, evaluated): choices 1 and 2 both have 0 votes and choice 1
is the recorded selection.  `handleVote(2)` gives the votes 0 and 1 (the
decrement of choice 1 is floored at 0), and when the submission is rejected the
`catch` block takes the vote off choice 2 and adds 1 to choice 1: the votes are
left at 1 and 0, not at the 0 and 0 of before the call. -/
theorem handleVoteCatch_votes_not_restored :
    (stateOf [choiceOf (JsId.num 1) 0, choiceOf (JsId.num 2) 0]
      (some (JsId.num 1))).choices.map (fun c => c.votes) = [0, 0] ∧
    (handleVote (JsId.num 2)
      (stateOf [choiceOf (JsId.num 1) 0, choiceOf (JsId.num 2) 0]
        (some (JsId.num 1)))).pending =
      [{ choiceId := JsId.num 2, prevChoice := some (JsId.num 1) }] ∧
    (handleVote (JsId.num 2)
      (stateOf [choiceOf (JsId.num 1) 0, choiceOf (JsId.num 2) 0]
        (some (JsId.num 1)))).choices.map (fun c => c.votes) = [0, 1] ∧
    (handleVoteCatch { choiceId := JsId.num 2, prevChoice := some (JsId.num 1) }
      { status := some 429 }
      (handleVote (JsId.num 2)
        (stateOf [choiceOf (JsId.num 1) 0, choiceOf (JsId.num 2) 0]
          (some (JsId.num 1))))).choices.map (fun c => c.votes) = [1, 0] := by
  decide

theorem poll_pending_of_handleVote (st : State) (choiceId : JsId) (p : PendingVote)
    (hp : (handleVote choiceId st).pending = st.pending ++ [p]) :
    st.pollCreated = true ∧ p = { choiceId := choiceId, prevChoice := st.myChoiceId } := by
  unfold handleVote at hp
  by_cases hc : st.pollCreated = false
  · rw [if_pos hc] at hp
    have := congrArg List.length hp
    simp at this
  · rw [if_neg hc] at hp
    simp only [List.append_cancel_left_eq, List.cons.injEq, and_true] at hp
    exact ⟨by simpa using hc, hp.symm⟩

/-- C4 (code defect, evaluated): choice `0` (1 vote) is the recorded selection;
`handleVote(2)` stores `prevChoice = 0`, and when the submission is rejected the
`catch` block sets `myChoiceId` to `prevChoice || null`, which is `null`: the
selection of before the call, choice `0`, is not put back. -/
theorem handleVoteCatch_myChoiceId_null :
    (stateOf [choiceOf (JsId.num 0) 1, choiceOf (JsId.num 2) 0]
      (some (JsId.num 0))).myChoiceId = some (JsId.num 0) ∧
    (handleVote (JsId.num 2)
      (stateOf [choiceOf (JsId.num 0) 1, choiceOf (JsId.num 2) 0]
        (some (JsId.num 0)))).pending =
      [{ choiceId := JsId.num 2, prevChoice := some (JsId.num 0) }] ∧
    (handleVoteCatch { choiceId := JsId.num 2, prevChoice := some (JsId.num 0) }
      { status := some 429 }
      (handleVote (JsId.num 2)
        (stateOf [choiceOf (JsId.num 0) 1, choiceOf (JsId.num 2) 0]
          (some (JsId.num 0))))).myChoiceId = none := by
  decide

end PollVoting

/-! ### Non-negative counts -/

theorem SlotPlanner.slot_apply_nonneg (myVotes : SlotPlanner.VoteMap)
    (slotId : String) (choice : SlotPlanner.VoteChoice) (s : SlotPlanner.Slot)
    (h : 0 ≤ s.yes_votes ∧ 0 ≤ s.no_votes) :
    0 ≤ (SlotPlanner.optimisticApply myVotes slotId choice s).yes_votes ∧
    0 ≤ (SlotPlanner.optimisticApply myVotes slotId choice s).no_votes := by
  have hy := mathMax0_nonneg (jsSub s.yes_votes 1)
  have hn := mathMax0_nonneg (jsSub s.no_votes 1)
  have hy1 := jsAdd_one_pos _ hy
  have hn1 := jsAdd_one_pos _ hn
  have hy2 := jsAdd_one_pos _ h.1
  have hn2 := jsAdd_one_pos _ h.2
  unfold SlotPlanner.optimisticApply
  simp only [orZero_eq]
  split_ifs <;> constructor <;> (try simp only []) <;> omega

theorem SlotPlanner.slot_rollback_nonneg (myVotes : SlotPlanner.VoteMap)
    (slotId : String) (choice : SlotPlanner.VoteChoice) (s : SlotPlanner.Slot)
    (h : 0 ≤ s.yes_votes ∧ 0 ≤ s.no_votes) :
    0 ≤ (SlotPlanner.rollback myVotes slotId choice s).yes_votes ∧
    0 ≤ (SlotPlanner.rollback myVotes slotId choice s).no_votes := by
  have hy := mathMax0_nonneg (jsSub s.yes_votes 1)
  have hn := mathMax0_nonneg (jsSub s.no_votes 1)
  have hy1 := jsAdd_one_pos _ hy
  have hn1 := jsAdd_one_pos _ hn
  have hy2 := jsAdd_one_pos _ h.1
  have hn2 := jsAdd_one_pos _ h.2
  unfold SlotPlanner.rollback
  simp only [orZero_eq]
  split_ifs <;> constructor <;> (try simp only []) <;> omega

theorem PollVoting.poll_apply_nonneg (myChoiceId : Option JsId) (choiceId : JsId)
    (c : PollVoting.PollChoice) (h : 0 ≤ c.votes) :
    0 ≤ (PollVoting.optimisticApply myChoiceId choiceId c).votes := by
  have hv := mathMax0_nonneg (jsSub c.votes 1)
  have hv1 := jsAdd_one_pos _ hv
  have hv2 := jsAdd_one_pos _ h
  unfold PollVoting.optimisticApply
  simp only [orZero_eq]
  split_ifs <;> omega

theorem PollVoting.poll_rollback_nonneg (prevChoice : Option JsId) (choiceId : JsId)
    (c : PollVoting.PollChoice) (h : 0 ≤ c.votes) :
    0 ≤ (PollVoting.rollback prevChoice choiceId c).votes := by
  have hv := mathMax0_nonneg (jsSub c.votes 1)
  have hv1 := jsAdd_one_pos _ hv
  have hv2 := jsAdd_one_pos _ h
  unfold PollVoting.rollback
  simp only [orZero_eq]
  split_ifs <;> omega

theorem TallyOp.exec_nonNeg (t : Tallies) (op : TallyOp) (h : t.NonNeg) :
    (TallyOp.exec t op).NonNeg := by
  obtain ⟨hs, hc⟩ := h
  cases op with
  | slotApply myVotes slotId choice =>
    refine ⟨?_, hc⟩
    intro s hmem
    obtain ⟨s0, h0, rfl⟩ := List.mem_map.1 hmem
    exact SlotPlanner.slot_apply_nonneg myVotes slotId choice s0 (hs s0 h0)
  | slotRollback myVotes slotId choice =>
    refine ⟨?_, hc⟩
    intro s hmem
    obtain ⟨s0, h0, rfl⟩ := List.mem_map.1 hmem
    exact SlotPlanner.slot_rollback_nonneg myVotes slotId choice s0 (hs s0 h0)
  | pollApply myChoiceId choiceId =>
    refine ⟨hs, ?_⟩
    intro c hmem
    obtain ⟨c0, h0, rfl⟩ := List.mem_map.1 hmem
    exact PollVoting.poll_apply_nonneg myChoiceId choiceId c0 (hc c0 h0)
  | pollRollback prevChoice choiceId =>
    refine ⟨hs, ?_⟩
    intro c hmem
    obtain ⟨c0, h0, rfl⟩ := List.mem_map.1 hmem
    exact PollVoting.poll_rollback_nonneg prevChoice choiceId c0 (hc c0 h0)

/-- C5: starting from slot counts and poll votes that are all non-negative, every
finite sequence of optimistic-apply and rollback steps of the two vote handlers,
with any prior selections and any choices, leaves every count non-negative. -/
theorem Tallies.runOps_nonNeg (t : Tallies) (ops : List TallyOp) (h : t.NonNeg) :
    (t.runOps ops).NonNeg := by
  unfold Tallies.runOps
  induction ops generalizing t with
  | nil => exact h
  | cons op rest ih => exact ih (TallyOp.exec t op) (TallyOp.exec_nonNeg t op h)

/-- Witness for `Tallies.runOps_nonNeg`: two rollbacks in a row against counts
that are already 0, then an apply with a stale prior selection. -/
theorem Tallies.runOps_nonNeg_witness :
    Tallies.NonNeg
      { slots := [SlotPlanner.slotOf "s1" 0 0],
        choices := [PollVoting.choiceOf (JsId.num 1) 0] } ∧
    Tallies.NonNeg
      (Tallies.runOps
        { slots := [SlotPlanner.slotOf "s1" 0 0],
          choices := [PollVoting.choiceOf (JsId.num 1) 0] }
        [TallyOp.slotRollback [] "s1" SlotPlanner.VoteChoice.yes,
          TallyOp.pollRollback none (JsId.num 1),
          TallyOp.slotApply [("s1", SlotPlanner.VoteChoice.no)] "s1"
            SlotPlanner.VoteChoice.yes,
          TallyOp.pollApply (some (JsId.num 1)) (JsId.num 2)]) :=
  ⟨by decide,
    Tallies.runOps_nonNeg
      { slots := [SlotPlanner.slotOf "s1" 0 0],
        choices := [PollVoting.choiceOf (JsId.num 1) 0] }
      [TallyOp.slotRollback [] "s1" SlotPlanner.VoteChoice.yes,
        TallyOp.pollRollback none (JsId.num 1),
        TallyOp.slotApply [("s1", SlotPlanner.VoteChoice.no)] "s1"
          SlotPlanner.VoteChoice.yes,
        TallyOp.pollApply (some (JsId.num 1)) (JsId.num 2)]
      (by decide)⟩

/-! ### Re-voting the current selection -/

theorem mathMax0_eq_max (x : Int) : mathMax0 x = max 0 x := by
  unfold mathMax0
  split_ifs with h
  · exact (max_eq_left h.le).symm
  · exact (max_eq_right (not_lt.1 h)).symm

/-- Taking a vote back and adding it again, on a count from 0 to `2 ^ 53`. -/
theorem jsAdd_mathMax0_jsSub (v : Int) (h0 : 0 ≤ v) (h1 : v ≤ maxSafeInteger + 1) :
    jsAdd (mathMax0 (jsSub v 1)) 1 = max 0 (v - 1) + 1 := by
  unfold maxSafeInteger at h1
  rw [jsSub_one_of_safe v (by omega) (by omega), mathMax0_eq_max,
    jsAdd_one_of_safe _ (by omega) (by omega)]

theorem SlotPlanner.slot_revote_iff (myVotes : SlotPlanner.VoteMap) (slotId : String)
    (choice : SlotPlanner.VoteChoice) (s : SlotPlanner.Slot)
    (hprior : myVotes.get slotId = some choice)
    (hy : 0 ≤ s.yes_votes ∧ s.yes_votes ≤ maxSafeInteger + 1)
    (hn : 0 ≤ s.no_votes ∧ s.no_votes ≤ maxSafeInteger + 1) :
    SlotPlanner.optimisticApply myVotes slotId choice s = s ↔
    (s.slot_id = slotId →
      (choice = SlotPlanner.VoteChoice.yes → 1 ≤ s.yes_votes) ∧
      (choice = SlotPlanner.VoteChoice.no → 1 ≤ s.no_votes)) := by
  rcases s with ⟨sid, st, et, y, n, w, uc⟩
  simp only at hy hn
  have ey := jsAdd_mathMax0_jsSub y hy.1 hy.2
  have en := jsAdd_mathMax0_jsSub n hn.1 hn.2
  unfold SlotPlanner.optimisticApply
  by_cases hid : sid = slotId
  · simp only [hid, ne_eq, not_true_eq_false, if_false, orZero_eq, hprior,
      SlotPlanner.Slot.mk.injEq, true_and, and_true, forall_const]
    cases choice
    · simp only [if_true, ey]
      simp
      omega
    · simp only [if_true, en]
      simp
      omega
  · simp [hid]

theorem PollVoting.poll_revote_choice_iff (choiceId : JsId) (ht : choiceId.truthy = true)
    (c : PollVoting.PollChoice)
    (hv : c.choice_id = choiceId → 0 ≤ c.votes ∧ c.votes ≤ maxSafeInteger + 1) :
    PollVoting.optimisticApply (some choiceId) choiceId c = c ↔
    (c.choice_id = choiceId → 1 ≤ c.votes) := by
  rcases c with ⟨cid, text, loc, v⟩
  simp only at hv
  simp only [PollVoting.optimisticApply, orZero_eq, PollVoting.PollChoice.mk.injEq,
    true_and, truthyOpt, Option.some.injEq, ht]
  by_cases h2 : cid = choiceId
  · have e := jsAdd_mathMax0_jsSub v (hv h2).1 (hv h2).2
    simp only [h2, if_true, e, forall_const]
    omega
  · simp [h2]

/-- C6, as stated, fails: a slot at `yes_votes = 0` re-voted `yes` goes to 1; a
poll choice at 0 votes that is re-voted goes to 1; and a slot at
`yes_votes = 2 ^ 53 + 2` re-voted `yes` goes to `2 ^ 53`, because binary64 rounds
`2 ^ 53 + 1` to `2 ^ 53` on the way down and on the way up. -/
theorem revote_counterexample :
    ((SlotPlanner.stateOf [SlotPlanner.slotOf "s1" 0 0]
        [("s1", SlotPlanner.VoteChoice.yes)]).myVotes.get "s1" =
        some SlotPlanner.VoteChoice.yes ∧
      (SlotPlanner.handleVote "s1" SlotPlanner.VoteChoice.yes
        (SlotPlanner.stateOf [SlotPlanner.slotOf "s1" 0 0]
          [("s1", SlotPlanner.VoteChoice.yes)])).slots = [SlotPlanner.slotOf "s1" 1 0]) ∧
    ((PollVoting.stateOf [PollVoting.choiceOf (JsId.num 1) 0]
        (some (JsId.num 1))).myChoiceId = some (JsId.num 1) ∧
      (PollVoting.handleVote (JsId.num 1)
        (PollVoting.stateOf [PollVoting.choiceOf (JsId.num 1) 0]
          (some (JsId.num 1)))).choices = [PollVoting.choiceOf (JsId.num 1) 1]) ∧
    (SlotPlanner.handleVote "s1" SlotPlanner.VoteChoice.yes
      (SlotPlanner.stateOf [SlotPlanner.slotOf "s1" 9007199254740994 0]
        [("s1", SlotPlanner.VoteChoice.yes)])).slots =
      [SlotPlanner.slotOf "s1" 9007199254740992 0] := by
  decide

/-- C6 (amended): re-voting the current selection is a net-zero tally change
exactly when the re-voted count is at least 1, for counts from 0 to `2 ^ 53`.  In
`SlotPlanner`, for every state whose guard lets the call through and whose
selection `myVotes[slotId]` equals the new choice, `handleVote` leaves `slots` as
it was iff every slot with that id has a count of at least 1 for that choice.  In
`PollVoting`, on a created poll whose selection `myChoiceId` equals the voted
`choiceId`, a truthy id, `handleVote` leaves `choices` as it was iff every
choice with that id has at least 1 vote. -/
theorem revote_net_zero_iff :
    (∀ (st : SlotPlanner.State) (slotId : String) (choice : SlotPlanner.VoteChoice),
      st.voteLoadingId ≠ some slotId →
      st.myVotes.get slotId = some choice →
      (∀ s ∈ st.slots, (0 ≤ s.yes_votes ∧ s.yes_votes ≤ maxSafeInteger + 1) ∧
        (0 ≤ s.no_votes ∧ s.no_votes ≤ maxSafeInteger + 1)) →
      ((SlotPlanner.handleVote slotId choice st).slots = st.slots ↔
        ∀ s ∈ st.slots, s.slot_id = slotId →
          (choice = SlotPlanner.VoteChoice.yes → 1 ≤ s.yes_votes) ∧
          (choice = SlotPlanner.VoteChoice.no → 1 ≤ s.no_votes))) ∧
    (∀ (st : PollVoting.State) (choiceId : JsId),
      st.pollCreated = true →
      st.myChoiceId = some choiceId →
      choiceId.truthy = true →
      (∀ c ∈ st.choices, 0 ≤ c.votes ∧ c.votes ≤ maxSafeInteger + 1) →
      ((PollVoting.handleVote choiceId st).choices = st.choices ↔
        ∀ c ∈ st.choices, c.choice_id = choiceId → 1 ≤ c.votes)) := by
  constructor
  · intro st slotId choice hg hprior hb
    have hs : (SlotPlanner.handleVote slotId choice st).slots =
        st.slots.map (SlotPlanner.optimisticApply st.myVotes slotId choice) := by
      unfold SlotPlanner.handleVote
      rw [if_neg hg]
    rw [hs, map_eq_self_iff]
    constructor
    · intro h s hmem
      exact (SlotPlanner.slot_revote_iff st.myVotes slotId choice s hprior
        (hb s hmem).1 (hb s hmem).2).1 (h s hmem)
    · intro h s hmem
      exact (SlotPlanner.slot_revote_iff st.myVotes slotId choice s hprior
        (hb s hmem).1 (hb s hmem).2).2 (h s hmem)
  · intro st choiceId hc hprior ht hb
    have hs : (PollVoting.handleVote choiceId st).choices =
        st.choices.map (PollVoting.optimisticApply (some choiceId) choiceId) := by
      unfold PollVoting.handleVote
      simp [hc, hprior]
    rw [hs, map_eq_self_iff]
    constructor
    · intro h c hmem
      exact (PollVoting.poll_revote_choice_iff choiceId ht c (fun _ => hb c hmem)).1
        (h c hmem)
    · intro h c hmem
      exact (PollVoting.poll_revote_choice_iff choiceId ht c (fun _ => hb c hmem)).2
        (h c hmem)

/-- Witness for `revote_net_zero_iff`: a slot at 3 `yes` votes re-voted `yes`, and
choice 1 at 2 votes re-voted, are both left as they were. -/
theorem revote_net_zero_iff_witness :
    (SlotPlanner.handleVote "s1" SlotPlanner.VoteChoice.yes
      (SlotPlanner.stateOf [SlotPlanner.slotOf "s1" 3 0]
        [("s1", SlotPlanner.VoteChoice.yes)])).slots = [SlotPlanner.slotOf "s1" 3 0] ∧
    (PollVoting.handleVote (JsId.num 1)
      (PollVoting.stateOf
        [PollVoting.choiceOf (JsId.num 1) 2, PollVoting.choiceOf (JsId.num 2) 0]
        (some (JsId.num 1)))).choices =
      [PollVoting.choiceOf (JsId.num 1) 2, PollVoting.choiceOf (JsId.num 2) 0] :=
  ⟨(revote_net_zero_iff.1
      (SlotPlanner.stateOf [SlotPlanner.slotOf "s1" 3 0]
        [("s1", SlotPlanner.VoteChoice.yes)])
      "s1" SlotPlanner.VoteChoice.yes (by decide) (by decide) (by decide)).2 (by decide),
    (revote_net_zero_iff.2
      (PollVoting.stateOf
        [PollVoting.choiceOf (JsId.num 1) 2, PollVoting.choiceOf (JsId.num 2) 0]
        (some (JsId.num 1)))
      (JsId.num 1) (by decide) (by decide) (by decide) (by decide)).2 (by decide)⟩

/-! ### The in-flight guard of SlotPlanner -/

namespace SlotPlanner

/-- C7, as stated, fails: after the summary delivered slots `A` and `B`, a `yes`
vote on `A` and then a `yes` vote on `B` are issued and neither has completed.
The submission for `A` is still pending, but `voteLoadingId` is `B`, and a further
`handleVote("A", "no")` changes `slots` and `myVotes` and issues a third
request. -/
theorem handleVote_guard_counterexample :
    Reachable
      (run (mount "e1" "u1")
        [Event.summary [slotOf "A" 0 0, slotOf "B" 0 0],
          Event.vote "A" VoteChoice.yes, Event.vote "B" VoteChoice.yes]) ∧
    (run (mount "e1" "u1")
        [Event.summary [slotOf "A" 0 0, slotOf "B" 0 0],
          Event.vote "A" VoteChoice.yes, Event.vote "B" VoteChoice.yes]).pending =
      [{ slotId := "A", choice := VoteChoice.yes, myVotes := [] },
        { slotId := "B", choice := VoteChoice.yes, myVotes := [("A", VoteChoice.yes)] }] ∧
    (run (mount "e1" "u1")
        [Event.summary [slotOf "A" 0 0, slotOf "B" 0 0],
          Event.vote "A" VoteChoice.yes, Event.vote "B" VoteChoice.yes]).slots =
      [slotOf "A" 1 0, slotOf "B" 1 0] ∧
    (handleVote "A" VoteChoice.no
      (run (mount "e1" "u1")
        [Event.summary [slotOf "A" 0 0, slotOf "B" 0 0],
          Event.vote "A" VoteChoice.yes, Event.vote "B" VoteChoice.yes])).slots =
      [slotOf "A" 0 1, slotOf "B" 1 0] ∧
    (handleVote "A" VoteChoice.no
      (run (mount "e1" "u1")
        [Event.summary [slotOf "A" 0 0, slotOf "B" 0 0],
          Event.vote "A" VoteChoice.yes, Event.vote "B" VoteChoice.yes])).myVotes =
      [("A", VoteChoice.no), ("B", VoteChoice.yes)] ∧
    (handleVote "A" VoteChoice.no
      (run (mount "e1" "u1")
        [Event.summary [slotOf "A" 0 0, slotOf "B" 0 0],
          Event.vote "A" VoteChoice.yes, Event.vote "B" VoteChoice.yes])).posted.length =
      3 :=
  ⟨⟨"e1", "u1", _, rfl⟩, by decide⟩

/-- C7 (amended): the guard is the single value `voteLoadingId`.  In every state
and for every slot `s` and choice, `handleVote(s, choice)` is a no-op (the whole
state, so `slots`, `myVotes` and the issued requests, is unchanged) if and only if
`voteLoadingId` equals `s`; issuing a vote for `s` sets `voteLoadingId` to `s`,
so a further `handleVote(s, _)` directly after it is a no-op; and the arrival of
a summary response does not touch `voteLoadingId`. -/
theorem handleVote_guard_iff (st : State) (s : String) (choice next : VoteChoice)
    (fetched : List Slot) :
    (handleVote s choice st = st ↔ st.voteLoadingId = some s) ∧
    (handleVote s choice st).voteLoadingId = some s ∧
    handleVote s next (handleVote s choice st) = handleVote s choice st ∧
    (step st (Event.summary fetched)).voteLoadingId = st.voteLoadingId := by
  have hset : (handleVote s choice st).voteLoadingId = some s := by
    unfold handleVote
    split_ifs with h
    · exact h
    · rfl
  have hnoop : ∀ (t : State) (c : VoteChoice), t.voteLoadingId = some s →
      handleVote s c t = t := by
    intro t c h
    unfold handleVote
    rw [if_pos h]
  refine ⟨⟨fun h => ?_, hnoop st choice⟩, hset, hnoop _ next hset, ?_⟩
  · rw [← h]
    exact hset
  · simp only [step, fetchSlotsThen]
    split_ifs <;> rfl

end SlotPlanner

/-! ### No in-flight guard in PollVoting -/

namespace PollVoting

/-- C8, as stated, fails: on a created poll, `handleVote(1)` issues a request that
is still pending; a second `handleVote(1)` is not ignored, it issues a second
request. -/
theorem handleVote_again_counterexample :
    (handleVote (JsId.num 1)
      (stateOf [choiceOf (JsId.num 1) 0, choiceOf (JsId.num 2) 0] none)).pending =
      [{ choiceId := JsId.num 1, prevChoice := none }] ∧
    (handleVote (JsId.num 1)
      (stateOf [choiceOf (JsId.num 1) 0, choiceOf (JsId.num 2) 0] none)).posted =
      [{ user_id := "u1", poll_id := JsId.num 1, choice_id := JsId.num 1 }] ∧
    (handleVote (JsId.num 1) (handleVote (JsId.num 1)
      (stateOf [choiceOf (JsId.num 1) 0, choiceOf (JsId.num 2) 0] none))).posted =
      [{ user_id := "u1", poll_id := JsId.num 1, choice_id := JsId.num 1 },
        { user_id := "u1", poll_id := JsId.num 1, choice_id := JsId.num 1 }] := by
  decide

/-- Voting a choice again right after it was voted leaves every choice as the first
vote left it, at every magnitude of the votes. -/
theorem poll_revote_after_vote (myChoiceId : Option JsId) (choiceId : JsId)
    (ht : choiceId.truthy = true) (c : PollChoice) (hv : 0 ≤ c.votes) :
    optimisticApply (some choiceId) choiceId (optimisticApply myChoiceId choiceId c) =
      optimisticApply myChoiceId choiceId c := by
  rcases c with ⟨cid, text, loc, v⟩
  simp only at hv
  have hs : truthyOpt (some choiceId) = true := ht
  simp only [optimisticApply, orZero_eq, PollChoice.mk.injEq, true_and, hs,
    Option.some.injEq]
  by_cases h2 : cid = choiceId
  · subst h2
    by_cases h1 : truthyOpt myChoiceId = true ∧ some cid = myChoiceId
    · simp only [h1, and_self, if_true]
      exact jsAdd_jsSub_jsAdd _ (mathMax0_nonneg _)
    · simp only [h1, and_self, if_true, if_false]
      exact jsAdd_jsSub_jsAdd _ hv
  · simp only [h2, if_false, and_false]

/-- C8 (amended): `PollVoting.handleVote` has no in-flight guard.  For every state
with the poll created and non-negative votes and every truthy choice id, in the
state right after `handleVote(choiceId)` was issued, a second
`handleVote(choiceId)` leaves `choices` and `myChoiceId` unchanged, but it is not
ignored: it issues a second request and a second continuation is pending. -/
theorem handleVote_again (st : State) (choiceId : JsId)
    (hc : st.pollCreated = true) (ht : choiceId.truthy = true)
    (hv : ∀ c ∈ st.choices, 0 ≤ c.votes) :
    (handleVote choiceId (handleVote choiceId st)).choices =
      (handleVote choiceId st).choices ∧
    (handleVote choiceId (handleVote choiceId st)).myChoiceId =
      (handleVote choiceId st).myChoiceId ∧
    (handleVote choiceId (handleVote choiceId st)).posted =
      (handleVote choiceId st).posted ++
        [{ user_id := st.userId, poll_id := st.pollId.getD (JsId.num 1),
           choice_id := choiceId }] ∧
    (handleVote choiceId (handleVote choiceId st)).pending =
      (handleVote choiceId st).pending ++
        [{ choiceId := choiceId, prevChoice := some choiceId }] := by
  have h1 : handleVote choiceId st =
      { st with
        choices := st.choices.map (optimisticApply st.myChoiceId choiceId)
        myChoiceId := some choiceId
        posted := st.posted ++
          [{ user_id := st.userId, poll_id := st.pollId.getD (JsId.num 1),
             choice_id := choiceId }]
        pending := st.pending ++
          [{ choiceId := choiceId, prevChoice := st.myChoiceId }] } := by
    unfold handleVote
    simp [hc]
  rw [h1]
  unfold handleVote
  simp only [hc, Bool.true_eq_false, if_false, List.map_map, and_true, true_and]
  rw [List.map_inj_left]
  intro c hmem
  rw [Function.comp_apply]
  exact poll_revote_after_vote st.myChoiceId choiceId ht c (hv c hmem)

/-- Witness for `handleVote_again`: choices 1 and 2 at 0 votes, no selection, and
two calls `handleVote(1)` in a row. -/
theorem handleVote_again_witness :
    (stateOf [choiceOf (JsId.num 1) 0, choiceOf (JsId.num 2) 0] none).pollCreated = true ∧
    (handleVote (JsId.num 1) (handleVote (JsId.num 1)
      (stateOf [choiceOf (JsId.num 1) 0, choiceOf (JsId.num 2) 0] none))).choices =
      (handleVote (JsId.num 1)
        (stateOf [choiceOf (JsId.num 1) 0, choiceOf (JsId.num 2) 0] none)).choices :=
  ⟨by decide,
    (handleVote_again
      (stateOf [choiceOf (JsId.num 1) 0, choiceOf (JsId.num 2) 0] none) (JsId.num 1)
      (by decide) (by decide) (by decide)).1⟩

end PollVoting

/-! ### Completion of a slot vote and its failure notice -/

namespace SlotPlanner

theorem complete_voteLoadingId (p : PendingVote) (o : Outcome) (st : State) :
    (complete p o st).voteLoadingId = none := by
  cases o <;> rfl

theorem complete_posted (p : PendingVote) (o : Outcome) (st : State) :
    (complete p o st).posted = st.posted ∧ (complete p o st).userId = st.userId := by
  cases o with
  | resolved =>
    simp only [complete, handleVoteThen, fetchSlots]
    split_ifs <;> exact ⟨rfl, rfl⟩
  | rejected error => exact ⟨rfl, rfl⟩

/-- C9: for every call of `handleVote` that passes the guard, the guard is set
and one continuation is pending; once the submission completes, resolved or
rejected with any error and in whatever state `later` the component is by then,
`voteLoadingId` is `null`, hence no longer equals `slotId`, and a later vote on
the same slot is accepted: it issues a request. -/
theorem handleVote_guard_cleared (st later : State) (slotId : String)
    (choice next : VoteChoice) (o : Outcome) (hg : st.voteLoadingId ≠ some slotId) :
    (handleVote slotId choice st).voteLoadingId = some slotId ∧
    (handleVote slotId choice st).pending =
      st.pending ++ [{ slotId := slotId, choice := choice, myVotes := st.myVotes }] ∧
    (complete { slotId := slotId, choice := choice, myVotes := st.myVotes } o
      later).voteLoadingId = none ∧
    (complete { slotId := slotId, choice := choice, myVotes := st.myVotes } o
      later).voteLoadingId ≠ some slotId ∧
    (∀ i, later.pending[i]? =
        some { slotId := slotId, choice := choice, myVotes := st.myVotes } →
      (step later (Event.settle i o)).voteLoadingId = none) ∧
    (handleVote slotId next
      (complete { slotId := slotId, choice := choice, myVotes := st.myVotes } o
        later)).posted =
      later.posted ++ [{ user_id := later.userId, slot_id := slotId, choice := next }] := by
  have hc := complete_voteLoadingId
    { slotId := slotId, choice := choice, myVotes := st.myVotes } o later
  have hp := complete_posted
    { slotId := slotId, choice := choice, myVotes := st.myVotes } o later
  refine ⟨?_, ?_, hc, ?_, ?_, ?_⟩
  · unfold handleVote
    rw [if_neg hg]
  · unfold handleVote
    rw [if_neg hg]
  · rw [hc]
    exact fun h => Option.noConfusion h
  · intro i hi
    simp only [step, hi]
    exact complete_voteLoadingId _ o _
  · unfold handleVote
    rw [hc, if_neg (fun h => Option.noConfusion h)]
    simp only [hp.1, hp.2]

/-- Witness for `handleVote_guard_cleared`: a first vote on slot `s1`, rejected
without a response. -/
theorem handleVote_guard_cleared_witness :
    (stateOf [slotOf "s1" 0 0] []).voteLoadingId ≠ some "s1" ∧
    (complete { slotId := "s1", choice := VoteChoice.yes, myVotes := [] }
      (Outcome.rejected { status := none })
      (handleVote "s1" VoteChoice.yes (stateOf [slotOf "s1" 0 0] []))).voteLoadingId =
      none :=
  ⟨by decide,
    (handleVote_guard_cleared (stateOf [slotOf "s1" 0 0] [])
      (handleVote "s1" VoteChoice.yes (stateOf [slotOf "s1" 0 0] [])) "s1"
      VoteChoice.yes VoteChoice.no (Outcome.rejected { status := none })
      (by decide)).2.2.1⟩

/-- C10, as stated, fails: `SlotPlanner.handleVote` has no branch for status 403.
A rejection with status 403 gets the generic notice, the same as status 500 or no
response at all, and not the voting-locked notice that `PollVoting` shows. -/
theorem failureNotice_403_counterexample :
    failureNotice { status := some 403 } = genericNotice ∧
    failureNotice { status := some 403 } = failureNotice { status := some 500 } ∧
    failureNotice { status := some 403 } = failureNotice { status := none } ∧
    failureNotice { status := some 403 } ≠ PollVoting.lockedNotice ∧
    (handleVoteCatch { slotId := "s1", choice := VoteChoice.yes, myVotes := [] }
      { status := some 403 }
      (handleVote "s1" VoteChoice.yes (stateOf [slotOf "s1" 0 0] []))).alerts =
      ["Hata oluştu!"] := by
  decide

/-- C10 (amended): for every failed vote submission exactly one notice is shown;
it is the rate-limit notice if and only if the response status is 429, and the
generic notice for every other failure, status 403 and failures without a
response included; the two notices differ. -/
theorem failureNotice_iff (p : PendingVote) (error : RequestError) (later : State) :
    (handleVoteCatch p error later).alerts = later.alerts ++ [failureNotice error] ∧
    (failureNotice error = rateLimitNotice ↔ error.status = some 429) ∧
    (failureNotice error = genericNotice ↔ error.status ≠ some 429) ∧
    rateLimitNotice ≠ genericNotice := by
  have hne : rateLimitNotice ≠ genericNotice := by decide
  refine ⟨rfl, ?_, ?_, hne⟩
  · unfold failureNotice
    split_ifs with h
    · exact ⟨fun _ => h, fun _ => rfl⟩
    · exact ⟨fun hx => absurd hx.symm hne, fun hx => absurd hx h⟩
  · unfold failureNotice
    split_ifs with h
    · exact ⟨fun hx => absurd hx hne, fun hx => absurd h hx⟩
    · exact ⟨fun _ => h, fun _ => rfl⟩

end SlotPlanner

/-! ### The failure notice of PollVoting -/

/-- C11: for every failed poll vote submission exactly one notice is produced;
it is the rate-limit notice iff the response status is 429, the voting-locked
notice iff the status is 403, and the generic notice otherwise, failures with no
response included; the three notices are different texts. -/
theorem PollVoting.poll_failureNotice_iff (p : PollVoting.PendingVote)
    (error : RequestError) (later : PollVoting.State) :
    (PollVoting.handleVoteCatch p error later).alerts =
      later.alerts ++ [PollVoting.failureNotice error] ∧
    (PollVoting.failureNotice error = PollVoting.rateLimitNotice ↔
      error.status = some 429) ∧
    (PollVoting.failureNotice error = PollVoting.lockedNotice ↔
      error.status = some 403) ∧
    (PollVoting.failureNotice error = PollVoting.genericNotice ↔
      (error.status ≠ some 429 ∧ error.status ≠ some 403)) ∧
    PollVoting.failureNotice { status := none } = PollVoting.genericNotice ∧
    PollVoting.rateLimitNotice ≠ PollVoting.lockedNotice ∧
    PollVoting.rateLimitNotice ≠ PollVoting.genericNotice ∧
    PollVoting.lockedNotice ≠ PollVoting.genericNotice := by
  have h1 : PollVoting.rateLimitNotice ≠ PollVoting.lockedNotice := by decide
  have h2 : PollVoting.rateLimitNotice ≠ PollVoting.genericNotice := by decide
  have h3 : PollVoting.lockedNotice ≠ PollVoting.genericNotice := by decide
  refine ⟨rfl, ?_, ?_, ?_, by decide, h1, h2, h3⟩
  · unfold PollVoting.failureNotice
    split_ifs with ha hb
    · exact ⟨fun _ => ha, fun _ => rfl⟩
    · exact ⟨fun hx => absurd hx.symm h1, fun hx => absurd hx ha⟩
    · exact ⟨fun hx => absurd hx.symm h2, fun hx => absurd hx ha⟩
  · unfold PollVoting.failureNotice
    split_ifs with ha hb
    · refine ⟨fun hx => absurd hx h1, fun hx => ?_⟩
      rw [ha] at hx
      exact absurd hx (by decide)
    · exact ⟨fun _ => hb, fun _ => rfl⟩
    · exact ⟨fun hx => absurd hx.symm h3, fun hx => absurd hx hb⟩
  · unfold PollVoting.failureNotice
    split_ifs with ha hb
    · exact ⟨fun hx => absurd hx h2, fun hx => absurd ha hx.1⟩
    · exact ⟨fun hx => absurd hx h3, fun hx => absurd hb hx.2⟩
    · exact ⟨fun _ => ⟨ha, hb⟩, fun _ => rfl⟩

/-! ### Insertion into a sorted list, for a relation that is an order on the
elements at hand -/

theorem sorted_orderedInsert_of {α : Type} (r : α → α → Prop) [DecidableRel r]
    (a : α) (l : List α) (htot : ∀ b ∈ l, r a b ∨ r b a)
    (htr : ∀ b ∈ l, ∀ c ∈ l, r a b → r b c → r a c) (hs : l.Sorted r) :
    (l.orderedInsert r a).Sorted r := by
  induction l with
  | nil => simp
  | cons b l ih =>
    simp only [List.orderedInsert]
    split_ifs with h
    · refine List.sorted_cons.2 ⟨?_, hs⟩
      intro c hc
      rcases List.mem_cons.1 hc with rfl | hc1
      · exact h
      · exact htr b (List.mem_cons_self _ _) c (List.mem_cons_of_mem _ hc1) h
          (List.rel_of_sorted_cons hs c hc1)
    · have hba : r b a := (htot b (List.mem_cons_self _ _)).resolve_left h
      refine List.sorted_cons.2 ⟨?_, ?_⟩
      · intro c hc
        rcases (List.mem_orderedInsert r).1 hc with rfl | hc1
        · exact hba
        · exact List.rel_of_sorted_cons hs c hc1
      · exact ih (fun c hc => htot c (List.mem_cons_of_mem _ hc))
          (fun c hc d hd => htr c (List.mem_cons_of_mem _ hc) d (List.mem_cons_of_mem _ hd))
          hs.of_cons

theorem sorted_insertionSort_of {α : Type} (r : α → α → Prop) [DecidableRel r]
    (l : List α) (htot : ∀ a ∈ l, ∀ b ∈ l, r a b ∨ r b a)
    (htr : ∀ a ∈ l, ∀ b ∈ l, ∀ c ∈ l, r a b → r b c → r a c) :
    (l.insertionSort r).Sorted r := by
  induction l with
  | nil => simp
  | cons a l ih =>
    simp only [List.insertionSort]
    apply sorted_orderedInsert_of
    · intro b hb
      exact htot a (List.mem_cons_self _ _) b
        (List.mem_cons_of_mem _ ((List.mem_insertionSort r).1 hb))
    · intro b hb c hc
      exact htr a (List.mem_cons_self _ _) b
        (List.mem_cons_of_mem _ ((List.mem_insertionSort r).1 hb)) c
        (List.mem_cons_of_mem _ ((List.mem_insertionSort r).1 hc))
    · exact ih (fun x hx y hy => htot x (List.mem_cons_of_mem _ hx) y
          (List.mem_cons_of_mem _ hy))
        (fun x hx y hy z hz => htr x (List.mem_cons_of_mem _ hx) y
          (List.mem_cons_of_mem _ hy) z (List.mem_cons_of_mem _ hz))

theorem filter_orderedInsert {α : Type} (r : α → α → Prop) [DecidableRel r]
    (p : α → Bool) (a : α) (l : List α)
    (h : p a = true → ∀ b ∈ l, p b = true → r a b) :
    (l.orderedInsert r a).filter p = (a :: l).filter p := by
  induction l with
  | nil => simp
  | cons b l ih =>
    simp only [List.orderedInsert]
    split_ifs with hr
    · rfl
    · have ih1 := ih (fun ha c hc hpc => h ha c (List.mem_cons_of_mem _ hc) hpc)
      rw [List.filter_cons, ih1]
      by_cases hpa : p a = true
      · have hpb : ¬ p b = true := fun hpb => hr (h hpa b (List.mem_cons_self _ _) hpb)
        simp [List.filter_cons, hpa, hpb]
      · simp [List.filter_cons, hpa]

theorem filter_insertionSort {α : Type} (r : α → α → Prop) [DecidableRel r]
    (p : α → Bool) (l : List α) (h : ∀ a b, p a = true → p b = true → r a b) :
    (l.insertionSort r).filter p = l.filter p := by
  induction l with
  | nil => simp
  | cons a l ih =>
    simp only [List.insertionSort]
    rw [filter_orderedInsert r p a _ (fun ha b _ hb => h a b ha hb), List.filter_cons,
      List.filter_cons, ih]

/-! ### The reference comparison is a consistent comparator -/

theorem lexCompare_self (a : List Nat) : lexCompare a a = 0 := by
  induction a with
  | nil => rfl
  | cons x xs ih => simp [lexCompare, ih]

theorem lexCompare_swap (a b : List Nat) : lexCompare a b < 0 ↔ 0 < lexCompare b a := by
  induction a generalizing b with
  | nil => cases b <;> simp [lexCompare]
  | cons x xs ih =>
    cases b with
    | nil => simp [lexCompare]
    | cons y ys =>
      simp only [lexCompare]
      split_ifs <;> first | omega | exact ih ys

theorem lexCompare_trans (a b c : List Nat) :
    lexCompare a b ≤ 0 → lexCompare b c ≤ 0 → lexCompare a c ≤ 0 := by
  induction a generalizing b c with
  | nil => cases c <;> simp [lexCompare]
  | cons x xs ih =>
    cases b with
    | nil => simp [lexCompare]
    | cons y ys =>
      cases c with
      | nil =>
        simp only [lexCompare]
        split_ifs <;> simp
      | cons z zs =>
        simp only [lexCompare]
        split_ifs <;> first | omega | exact ih ys zs

theorem reference_consistentCollation : Builtins.reference.ConsistentCollation :=
  ⟨fun _ => lexCompare_self _, fun _ _ => lexCompare_swap _ _,
    fun _ _ _ => lexCompare_trans _ _ _⟩

/-! ### The order of `sortedExpenses` -/

namespace ExpenseSplitter

theorem compare_le_iff (js : Builtins) (a b : Expense) (ta tb : Int)
    (ha : time js a = some ta) (hb : time js b = some tb) :
    (compareExpenses js a b).getD 0 ≤ 0 ↔
      (tb < ta ∨ (ta = tb ∧ js.localeCompare (idString b) (idString a) ≤ 0)) := by
  unfold compareExpenses
  rw [ha, hb]
  by_cases h : ta = tb
  · subst h
    simp
  · simp only [ne_eq, h, not_false_eq_true, if_true, Option.getD_some, false_and, or_false]
    omega

theorem sortedExpenses_sorted (js : Builtins) (hc : js.ConsistentCollation)
    (l : List Expense) (hvalid : ∀ e ∈ l, time js e ≠ none) :
    (sortedExpenses js l).Sorted (fun a b => (compareExpenses js a b).getD 0 ≤ 0) := by
  obtain ⟨_, hswap, htrans⟩ := hc
  have hv : ∀ e ∈ l, ∃ t, time js e = some t := fun e he =>
    Option.ne_none_iff_exists'.1 (hvalid e he)
  apply sorted_insertionSort_of
  · intro a ha b hb
    obtain ⟨ta, hta⟩ := hv a ha
    obtain ⟨tb, htb⟩ := hv b hb
    rw [compare_le_iff js a b ta tb hta htb, compare_le_iff js b a tb ta htb hta]
    have h1 := hswap (idString a) (idString b)
    have h2 := hswap (idString b) (idString a)
    omega
  · intro a ha b hb c hcm
    obtain ⟨ta, hta⟩ := hv a ha
    obtain ⟨tb, htb⟩ := hv b hb
    obtain ⟨tc, htc⟩ := hv c hcm
    rw [compare_le_iff js a b ta tb hta htb, compare_le_iff js b c tb tc htb htc,
      compare_le_iff js a c ta tc hta htc]
    have h3 := htrans (idString c) (idString b) (idString a)
    intro h1 h2
    rcases h1 with h1 | ⟨h1, h1c⟩ <;> rcases h2 with h2 | ⟨h2, h2c⟩
    · left; omega
    · left; omega
    · left; omega
    · right; exact ⟨by omega, h3 h2c h1c⟩

/-- C12, as stated, fails on lists that carry a `created_at` which is not a valid
date: its time is `NaN`, the comparator returns `NaN` against every entry, and
the sort takes that as a tie.  Two entries with the same invalid `created_at`
stay in their input order `a`, `b`, which is ascending in `expense_id`.  And with
an invalid date between them, the entry of 2024-01-01 stays before the entry of
2024-01-02. -/
theorem sortedExpenses_counterexample :
    (sortedExpenses Builtins.reference
        [expenseOf "a" (some "bad"), expenseOf "b" (some "bad")] =
      [expenseOf "a" (some "bad"), expenseOf "b" (some "bad")] ∧
      Builtins.reference.localeCompare "a" "b" < 0) ∧
    (sortedExpenses Builtins.reference
        [expenseOf "x" (some "2024-01-01"), expenseOf "y" (some "bad"),
          expenseOf "z" (some "2024-01-02")] =
      [expenseOf "x" (some "2024-01-01"), expenseOf "y" (some "bad"),
        expenseOf "z" (some "2024-01-02")] ∧
      time Builtins.reference (expenseOf "x" (some "2024-01-01")) = some 1704067200000 ∧
      time Builtins.reference (expenseOf "y" (some "bad")) = none ∧
      time Builtins.reference (expenseOf "z" (some "2024-01-02")) = some 1704153600000) := by
  decide

/-- C12 (amended): for every list of expenses whose `created_at` values, where
present, are valid dates, `sortedExpenses` is a rearrangement of the list ordered
by time descending, a missing `created_at` counting as time 0; any two entries
whose times are equal, and so any two entries that both lack `created_at`, appear
in descending `localeCompare` order of `String(expense_id)`. -/
theorem sortedExpenses_ordered (js : Builtins) (hc : js.ConsistentCollation)
    (l : List Expense) (hvalid : ∀ e ∈ l, time js e ≠ none) :
    (sortedExpenses js l).Perm l ∧
    (sortedExpenses js l).Pairwise (fun a b =>
      (∃ ta tb, time js a = some ta ∧ time js b = some tb ∧ tb ≤ ta ∧
        (ta = tb → js.localeCompare (idString b) (idString a) ≤ 0)) ∧
      (a.created_at = none → b.created_at = none →
        js.localeCompare (idString b) (idString a) ≤ 0)) := by
  refine ⟨List.perm_insertionSort _ l, ?_⟩
  have hs := sortedExpenses_sorted js hc l hvalid
  have hmem : ∀ e, e ∈ sortedExpenses js l → e ∈ l := fun e he =>
    (List.mem_insertionSort _).1 he
  refine List.Pairwise.imp_of_mem ?_ hs
  intro a b ha hb hab
  obtain ⟨ta, hta⟩ := Option.ne_none_iff_exists'.1 (hvalid a (hmem a ha))
  obtain ⟨tb, htb⟩ := Option.ne_none_iff_exists'.1 (hvalid b (hmem b hb))
  rw [compare_le_iff js a b ta tb hta htb] at hab
  have key : tb ≤ ta ∧ (ta = tb → js.localeCompare (idString b) (idString a) ≤ 0) := by
    rcases hab with h | ⟨h, h2⟩
    · exact ⟨by omega, fun heq => by omega⟩
    · exact ⟨by omega, fun _ => h2⟩
  refine ⟨⟨ta, tb, hta, htb, key.1, key.2⟩, ?_⟩
  intro hna hnb
  have h0a : ta = 0 := by
    have : time js a = some 0 := by simp [time, hna]
    rw [hta] at this
    exact Option.some.inj this
  have h0b : tb = 0 := by
    have : time js b = some 0 := by simp [time, hnb]
    rw [htb] at this
    exact Option.some.inj this
  exact key.2 (by omega)

/-- Witness for `sortedExpenses_ordered`: ids `a` and `b` without `created_at`
and `c` created on 2024-01-02 come out in the order `c`, `b`, `a`. -/
theorem sortedExpenses_ordered_witness :
    (∀ e ∈ [expenseOf "a" none, expenseOf "b" none, expenseOf "c" (some "2024-01-02")],
      time Builtins.reference e ≠ none) ∧
    sortedExpenses Builtins.reference
        [expenseOf "a" none, expenseOf "b" none, expenseOf "c" (some "2024-01-02")] =
      [expenseOf "c" (some "2024-01-02"), expenseOf "b" none, expenseOf "a" none] ∧
    (sortedExpenses Builtins.reference
        [expenseOf "a" none, expenseOf "b" none, expenseOf "c" (some "2024-01-02")]).Perm
      [expenseOf "a" none, expenseOf "b" none, expenseOf "c" (some "2024-01-02")] :=
  ⟨by decide, by decide,
    (sortedExpenses_ordered Builtins.reference reference_consistentCollation
      [expenseOf "a" none, expenseOf "b" none, expenseOf "c" (some "2024-01-02")]
      (by decide)).1⟩

end ExpenseSplitter

/-! ### The order of `sortedSlots` -/

namespace SlotPlanner

theorem compareSlots_le_iff (js : Builtins) (a b : Slot) (ta tb : Int)
    (ha : startTime js a = some ta) (hb : startTime js b = some tb) :
    (compareSlots js a b).getD 0 ≤ 0 ↔ tb ≤ ta := by
  unfold compareSlots
  rw [ha, hb]
  simp only [Option.getD_some]
  omega

/-- C13, as stated, fails: slots `a` and `b` with `start_time` null and `c`
starting on 2024-01-02, given in the order `a`, `b`, `c`, are output as `c`, `a`,
`b`: the two slots with equal times keep their input order. -/
theorem sortedSlots_counterexample :
    sortedSlots Builtins.reference
        [slotOf "a" 0 0, slotOf "b" 0 0,
          { slotOf "c" 0 0 with start_time := some "2024-01-02" }] =
      [{ slotOf "c" 0 0 with start_time := some "2024-01-02" }, slotOf "a" 0 0,
        slotOf "b" 0 0] ∧
    sortedSlots Builtins.reference
        [slotOf "a" 0 0, slotOf "b" 0 0,
          { slotOf "c" 0 0 with start_time := some "2024-01-02" }] ≠
      [{ slotOf "c" 0 0 with start_time := some "2024-01-02" }, slotOf "b" 0 0,
        slotOf "a" 0 0] := by
  decide

/-- C13 (amended): for every list of slots whose `start_time` values are null or
valid dates, `sortedSlots` is a rearrangement of the list ordered by start time
descending, a null `start_time` counting as time 0; slots whose start times are
equal keep the order they have in the input list, whatever their `slot_id`. -/
theorem sortedSlots_ordered (js : Builtins) (l : List Slot)
    (hvalid : ∀ s ∈ l, startTime js s ≠ none) :
    (sortedSlots js l).Perm l ∧
    (sortedSlots js l).Pairwise (fun a b =>
      ∃ ta tb, startTime js a = some ta ∧ startTime js b = some tb ∧ tb ≤ ta) ∧
    (∀ t : Int, (sortedSlots js l).filter (fun s => decide (startTime js s = some t)) =
      l.filter (fun s => decide (startTime js s = some t))) := by
  have hv : ∀ e ∈ l, ∃ t, startTime js e = some t := fun e he =>
    Option.ne_none_iff_exists'.1 (hvalid e he)
  refine ⟨List.perm_insertionSort _ l, ?_, ?_⟩
  · have hs : (sortedSlots js l).Sorted (fun a b => (compareSlots js a b).getD 0 ≤ 0) := by
      apply sorted_insertionSort_of
      · intro a ha b hb
        obtain ⟨ta, hta⟩ := hv a ha
        obtain ⟨tb, htb⟩ := hv b hb
        rw [compareSlots_le_iff js a b ta tb hta htb, compareSlots_le_iff js b a tb ta htb hta]
        omega
      · intro a ha b hb c hcm
        obtain ⟨ta, hta⟩ := hv a ha
        obtain ⟨tb, htb⟩ := hv b hb
        obtain ⟨tc, htc⟩ := hv c hcm
        rw [compareSlots_le_iff js a b ta tb hta htb, compareSlots_le_iff js b c tb tc htb htc,
          compareSlots_le_iff js a c ta tc hta htc]
        omega
    refine List.Pairwise.imp_of_mem ?_ hs
    intro a b ha hb hab
    obtain ⟨ta, hta⟩ := hv a ((List.mem_insertionSort _).1 ha)
    obtain ⟨tb, htb⟩ := hv b ((List.mem_insertionSort _).1 hb)
    rw [compareSlots_le_iff js a b ta tb hta htb] at hab
    exact ⟨ta, tb, hta, htb, hab⟩
  · intro t
    apply filter_insertionSort
    intro a b ha hb
    rw [compareSlots_le_iff js a b t t (of_decide_eq_true ha) (of_decide_eq_true hb)]

/-- Witness for `sortedSlots_ordered`: slots starting on 2024-01-01 and on
2024-01-02 come out latest first. -/
theorem sortedSlots_ordered_witness :
    (∀ s ∈ [{ slotOf "a" 0 0 with start_time := some "2024-01-01" },
        { slotOf "c" 0 0 with start_time := some "2024-01-02" }],
      startTime Builtins.reference s ≠ none) ∧
    sortedSlots Builtins.reference
        [{ slotOf "a" 0 0 with start_time := some "2024-01-01" },
          { slotOf "c" 0 0 with start_time := some "2024-01-02" }] =
      [{ slotOf "c" 0 0 with start_time := some "2024-01-02" },
        { slotOf "a" 0 0 with start_time := some "2024-01-01" }] ∧
    (sortedSlots Builtins.reference
        [{ slotOf "a" 0 0 with start_time := some "2024-01-01" },
          { slotOf "c" 0 0 with start_time := some "2024-01-02" }]).Perm
      [{ slotOf "a" 0 0 with start_time := some "2024-01-01" },
        { slotOf "c" 0 0 with start_time := some "2024-01-02" }] :=
  ⟨by decide, by decide,
    (sortedSlots_ordered Builtins.reference
      [{ slotOf "a" 0 0 with start_time := some "2024-01-01" },
        { slotOf "c" 0 0 with start_time := some "2024-01-02" }] (by decide)).1⟩

end SlotPlanner

/-! ### Reproducible order of `sortedExpenses` -/

namespace ExpenseSplitter

/-- C14, as stated, fails in two ways.  The ids `1` (a number) and `"1"` (a
string) are distinct values with the same id string, so the two entries tie and
keep their input order: the two orders of supply give two different outputs.  And
two entries with distinct ids whose `created_at` is not a valid date tie as well,
whatever their ids. -/
theorem sortedExpenses_perm_counterexample :
    ([{ expenseOf "" none with expense_id := some (JsId.num 1), notes := "x" },
        { expenseOf "" none with expense_id := some (JsId.str "1"), notes := "y" }].Perm
        [{ expenseOf "" none with expense_id := some (JsId.str "1"), notes := "y" },
          { expenseOf "" none with expense_id := some (JsId.num 1), notes := "x" }] ∧
      some (JsId.num 1) ≠ some (JsId.str "1") ∧
      sortedExpenses Builtins.reference
          [{ expenseOf "" none with expense_id := some (JsId.num 1), notes := "x" },
            { expenseOf "" none with expense_id := some (JsId.str "1"), notes := "y" }] ≠
        sortedExpenses Builtins.reference
          [{ expenseOf "" none with expense_id := some (JsId.str "1"), notes := "y" },
            { expenseOf "" none with expense_id := some (JsId.num 1), notes := "x" }]) ∧
    ([expenseOf "a" (some "bad"), expenseOf "b" (some "bad")].Perm
        [expenseOf "b" (some "bad"), expenseOf "a" (some "bad")] ∧
      sortedExpenses Builtins.reference
          [expenseOf "a" (some "bad"), expenseOf "b" (some "bad")] ≠
        sortedExpenses Builtins.reference
          [expenseOf "b" (some "bad"), expenseOf "a" (some "bad")]) := by
  decide

/-- C14 (amended): for every two expense lists that are permutations of each
other, whose `expense_id` values are pairwise distinct and have id strings that
`localeCompare` tells apart, and whose `created_at` values, where present, are
valid dates, `sortedExpenses` returns the same list for both, also when no item
has a `created_at`. -/
theorem sortedExpenses_perm_eq (js : Builtins) (hc : js.ConsistentCollation)
    (l₁ l₂ : List Expense) (hp : l₁.Perm l₂)
    (hdistinct : l₁.Pairwise (fun a b => a.expense_id ≠ b.expense_id))
    (hsep : ∀ a ∈ l₁, ∀ b ∈ l₁, a.expense_id ≠ b.expense_id →
      js.localeCompare (idString a) (idString b) ≠ 0)
    (hvalid : ∀ e ∈ l₁, time js e ≠ none) :
    sortedExpenses js l₁ = sortedExpenses js l₂ := by
  have hvalid2 : ∀ e ∈ l₂, time js e ≠ none := fun e he => hvalid e (hp.mem_iff.2 he)
  have hs1 := sortedExpenses_sorted js hc l₁ hvalid
  have hs2 := sortedExpenses_sorted js hc l₂ hvalid2
  have hperm : (sortedExpenses js l₁).Perm (sortedExpenses js l₂) :=
    (List.perm_insertionSort _ l₁).trans (hp.trans (List.perm_insertionSort _ l₂).symm)
  refine List.Perm.eq_of_sorted ?_ hs1 hs2 hperm
  intro a b ha hb hab hba
  have ha1 : a ∈ l₁ := (List.mem_insertionSort _).1 ha
  have hb1 : b ∈ l₁ := hp.mem_iff.2 ((List.mem_insertionSort _).1 hb)
  obtain ⟨ta, hta⟩ := Option.ne_none_iff_exists'.1 (hvalid a ha1)
  obtain ⟨tb, htb⟩ := Option.ne_none_iff_exists'.1 (hvalid b hb1)
  rw [compare_le_iff js a b ta tb hta htb] at hab
  rw [compare_le_iff js b a tb ta htb hta] at hba
  have hswap := hc.2.1 (idString a) (idString b)
  have hzero : js.localeCompare (idString a) (idString b) = 0 := by omega
  by_contra hne
  have hid : a.expense_id = b.expense_id := by
    by_contra hid
    exact hsep a ha1 b hb1 hid hzero
  have hsym : Symmetric (fun a b : Expense => a.expense_id ≠ b.expense_id) :=
    fun _ _ h => fun h2 => h h2.symm
  exact hdistinct.forall hsym ha1 hb1 hne hid

/-- Witness for `sortedExpenses_perm_eq`: three expenses without `created_at`,
supplied in two different orders. -/
theorem sortedExpenses_perm_eq_witness :
    [expenseOf "a" none, expenseOf "b" none, expenseOf "c" none].Perm
      [expenseOf "c" none, expenseOf "a" none, expenseOf "b" none] ∧
    sortedExpenses Builtins.reference
        [expenseOf "a" none, expenseOf "b" none, expenseOf "c" none] =
      sortedExpenses Builtins.reference
        [expenseOf "c" none, expenseOf "a" none, expenseOf "b" none] ∧
    sortedExpenses Builtins.reference
        [expenseOf "a" none, expenseOf "b" none, expenseOf "c" none] =
      [expenseOf "c" none, expenseOf "b" none, expenseOf "a" none] :=
  ⟨by decide,
    sortedExpenses_perm_eq Builtins.reference reference_consistentCollation
      [expenseOf "a" none, expenseOf "b" none, expenseOf "c" none]
      [expenseOf "c" none, expenseOf "a" none, expenseOf "b" none]
      (by decide) (by decide) (by decide) (by decide),
    by decide⟩

end ExpenseSplitter

/-! ### Validation of an expense draft -/

theorem string_length_pos_iff (s : String) : 0 < s.length ↔ s ≠ "" := by
  rcases s with ⟨l⟩
  cases l with
  | nil => simp [String.length]
  | cons c cs =>
    simp only [String.length, List.length_cons, Nat.zero_lt_succ, ne_eq, true_iff]
    intro h
    have := congrArg String.data h
    simp at this

theorem JsNum.lt_zero_iff (x : JsNum) :
    JsNum.lt (JsNum.fin 0) x = true ↔ (x = JsNum.posInf ∨ ∃ q, x = JsNum.fin q ∧ 0 < q) := by
  cases x <;> simp [JsNum.lt]

theorem JsNum.le_zero_iff (x : JsNum) :
    JsNum.le x (JsNum.fin 0) = true ↔ (x = JsNum.negInf ∨ ∃ q, x = JsNum.fin q ∧ q ≤ 0) := by
  cases x <;> simp [JsNum.le]

theorem JsNum.isFinite_iff (x : JsNum) : x.isFinite = true ↔ ∃ q, x = JsNum.fin q := by
  cases x <;> simp [JsNum.isFinite]

theorem JsNum.isNaN_iff (x : JsNum) : x.isNaN = true ↔ x = JsNum.nan := by
  cases x <;> simp [JsNum.isNaN]

namespace ExpenseSplitter

/-- C15, as stated, fails in two ways.  While the summary is being fetched
(`isFetching`), a draft with amount `"5"`, notes `"x"` and weight 1 and no
submission in flight cannot be submitted.  And the amount `"Infinity"`, which
does not parse as a finite number, can. -/
theorem canSubmit_counterexample :
    (amt Builtins.reference { amount := "5", notes := "x", weight := JsVal.num (JsNum.fin 1) } =
        JsNum.fin 5 ∧
      trimmedNotes { amount := "5", notes := "x", weight := JsVal.num (JsNum.fin 1) } = "x" ∧
      weight Builtins.reference
        { amount := "5", notes := "x", weight := JsVal.num (JsNum.fin 1) } = JsNum.fin 1 ∧
      ({ stateOf { amount := "5", notes := "x", weight := JsVal.num (JsNum.fin 1) } with
          isFetching := true } : State).loading = false ∧
      canSubmit Builtins.reference
        { stateOf { amount := "5", notes := "x", weight := JsVal.num (JsNum.fin 1) } with
          isFetching := true } = false) ∧
    (amt Builtins.reference
        { amount := "Infinity", notes := "x", weight := JsVal.num (JsNum.fin 1) } =
        JsNum.posInf ∧
      canSubmit Builtins.reference
        (stateOf { amount := "Infinity", notes := "x", weight := JsVal.num (JsNum.fin 1) }) =
        true) := by
  decide

/-- C15 (amended): `canSubmit` is true if and only if all of the following hold:
no expense submission is in flight (`loading` is false); no summary fetch is in
progress (`isFetching` is false); the amount text, with the first `','` read as
`'.'`, parses as a number strictly greater than 0 (`NaN` excluded, `Infinity`
not); the notes are non-empty after trimming; and the weight converts to a finite
number. -/
theorem canSubmit_iff (js : Builtins) (st : State) :
    canSubmit js st = true ↔
      (st.loading = false ∧ st.isFetching = false ∧
        (amt js st.newExpense = JsNum.posInf ∨
          ∃ q, amt js st.newExpense = JsNum.fin q ∧ 0 < q) ∧
        trimmedNotes st.newExpense ≠ "" ∧
        ∃ w, weight js st.newExpense = JsNum.fin w) := by
  unfold canSubmit
  simp only [Bool.and_eq_true, Bool.not_eq_true', decide_eq_true_eq, JsNum.lt_zero_iff,
    JsNum.isFinite_iff, string_length_pos_iff]
  constructor
  · rintro ⟨⟨⟨⟨⟨h1, h2⟩, _⟩, h4⟩, h5⟩, h6⟩
    exact ⟨h1, h2, h4, h5, h6⟩
  · rintro ⟨h1, h2, h4, h5, h6⟩
    refine ⟨⟨⟨⟨⟨h1, h2⟩, ?_⟩, h4⟩, h5⟩, h6⟩
    rcases h4 with h | ⟨q, h, _⟩ <;> rw [h] <;> rfl

/-- C16, as stated, fails on its own example: the draft amount `"12,50"`, notes
`" Pizza "`, weight `""` is accepted and submitted with amount 12.5 and notes
`"Pizza"`, but with weight 0, not 1.0, because `Number("")` is 0, a finite
number. -/
theorem handleAddExpense_weight_counterexample :
    rejects Builtins.reference
      { amount := "12,50", notes := " Pizza ", weight := JsVal.str "" } = false ∧
    (handleAddExpense Builtins.reference
      (stateOf { amount := "12,50", notes := " Pizza ", weight := JsVal.str "" })).posted =
      [{ user_id := "u1", amount := JsNum.fin (mkRat 25 2), notes := "Pizza",
         weight := JsNum.fin 0 }] ∧
    mkRat 25 2 = (12.5 : ℚ) := by
  refine ⟨by decide, by decide, by norm_num⟩

/-- C16 (amended): for every draft that passes the validation of
`handleAddExpense`, one request is posted; its amount is the parsed number, its
notes are the trimmed notes, and its weight is `Number(weight)` when that is
finite and 1.0 otherwise.  So the weight is 1.0 for a weight that does not convert
to a number (`undefined`, or a string that is not a numeric literal), but an
empty weight string, which `Number` converts to 0, is submitted as 0. -/
theorem handleAddExpense_body (js : Builtins) (st : State)
    (hok : rejects js st.newExpense = false) :
    (handleAddExpense js st).posted =
      st.posted ++
        [{ user_id := st.userId, amount := amt js st.newExpense,
           notes := trimmedNotes st.newExpense, weight := (expenseBody js st).weight }] ∧
    (∀ w, weight js st.newExpense = JsNum.fin w →
      (expenseBody js st).weight = JsNum.fin w) ∧
    ((∀ w, weight js st.newExpense ≠ JsNum.fin w) →
      (expenseBody js st).weight = JsNum.fin 1) ∧
    (st.newExpense.weight = JsVal.undefined → (expenseBody js st).weight = JsNum.fin 1) ∧
    (st.newExpense.weight = JsVal.str "" → js.stringToNumber "" = JsNum.fin 0 →
      (expenseBody js st).weight = JsNum.fin 0) := by
  have hw : ∀ w, weight js st.newExpense = JsNum.fin w →
      (expenseBody js st).weight = JsNum.fin w := by
    intro w h
    simp [expenseBody, h, JsNum.isFinite]
  have hn : (∀ w, weight js st.newExpense ≠ JsNum.fin w) →
      (expenseBody js st).weight = JsNum.fin 1 := by
    intro h
    have hf : ¬ (weight js st.newExpense).isFinite = true := by
      rw [JsNum.isFinite_iff]
      rintro ⟨w, hw1⟩
      exact h w hw1
    simp [expenseBody, hf]
  refine ⟨?_, hw, hn, ?_, ?_⟩
  · unfold handleAddExpense
    rw [hok]
    rfl
  · intro hu
    apply hn
    intro w
    simp [weight, hu, toNumber]
  · intro hs h0
    apply hw
    simp [weight, hs, toNumber, h0]

/-- Witness for `handleAddExpense_body`: the draft amount `"12,50"`, notes
`" Pizza "` with a weight that is not a numeric literal is submitted as amount
12.5, notes `"Pizza"`, weight 1.0. -/
theorem handleAddExpense_body_witness :
    rejects Builtins.reference
      { amount := "12,50", notes := " Pizza ", weight := JsVal.str "abc" } = false ∧
    (handleAddExpense Builtins.reference
      (stateOf { amount := "12,50", notes := " Pizza ", weight := JsVal.str "abc" })).posted =
      [{ user_id := "u1", amount := JsNum.fin (mkRat 25 2), notes := "Pizza",
         weight := JsNum.fin 1 }] :=
  ⟨by decide,
    ((handleAddExpense_body Builtins.reference
      (stateOf { amount := "12,50", notes := " Pizza ", weight := JsVal.str "abc" })
      (by decide)).1).trans (by decide)⟩

/-- C17: `handleAddExpense` rejects a draft if and only if its notes are empty
after trimming, or its amount (the first `','` read as `'.'`) does not parse to a
number, or it parses to a number that is at most 0.  On rejection no request is
posted and nothing but the list of shown alerts changes: `expenses`, `balances`,
the total, the draft, `loading` and `error` are as before.  A draft that is not
rejected is posted. -/
theorem handleAddExpense_rejects_iff (js : Builtins) (st : State) :
    (rejects js st.newExpense = true ↔
      (trimmedNotes st.newExpense = "" ∨ amt js st.newExpense = JsNum.nan ∨
        amt js st.newExpense = JsNum.negInf ∨
        ∃ q, amt js st.newExpense = JsNum.fin q ∧ q ≤ 0)) ∧
    (rejects js st.newExpense = true →
      handleAddExpense js st = { st with alerts := st.alerts ++ [invalidNotice] } ∧
      (handleAddExpense js st).posted = st.posted ∧
      (handleAddExpense js st).expenses = st.expenses ∧
      (handleAddExpense js st).balances = st.balances ∧
      (handleAddExpense js st).totalAmount = st.totalAmount ∧
      (handleAddExpense js st).newExpense = st.newExpense ∧
      (handleAddExpense js st).loading = st.loading ∧
      (handleAddExpense js st).error = st.error) ∧
    (rejects js st.newExpense = false →
      (handleAddExpense js st).posted = st.posted ++ [expenseBody js st]) := by
  refine ⟨?_, ?_, ?_⟩
  · unfold rejects
    simp only [Bool.or_eq_true, decide_eq_true_eq, JsNum.isNaN_iff, JsNum.le_zero_iff]
    tauto
  · intro h
    have hst : handleAddExpense js st = { st with alerts := st.alerts ++ [invalidNotice] } := by
      unfold handleAddExpense
      rw [if_pos h]
    rw [hst]
    exact ⟨rfl, rfl, rfl, rfl, rfl, rfl, rfl, rfl⟩
  · intro h
    unfold handleAddExpense
    rw [h]
    rfl

/-- Witness for `handleAddExpense_rejects_iff`: amount `"0"` with notes `"x"`, and
amount `"5"` with notes of white space only, are both rejected without a
request. -/
theorem handleAddExpense_rejects_iff_witness :
    (rejects Builtins.reference
        { amount := "0", notes := "x", weight := JsVal.num (JsNum.fin 1) } = true ∧
      (handleAddExpense Builtins.reference
        (stateOf { amount := "0", notes := "x", weight := JsVal.num (JsNum.fin 1) })).posted =
        []) ∧
    (rejects Builtins.reference
        { amount := "5", notes := "   ", weight := JsVal.num (JsNum.fin 1) } = true ∧
      (handleAddExpense Builtins.reference
        (stateOf { amount := "5", notes := "   ", weight := JsVal.num (JsNum.fin 1) })).posted =
        []) :=
  ⟨⟨by decide,
      ((handleAddExpense_rejects_iff Builtins.reference
        (stateOf { amount := "0", notes := "x", weight := JsVal.num (JsNum.fin 1) })).2.1
        (by decide)).2.1⟩,
    ⟨by decide,
      ((handleAddExpense_rejects_iff Builtins.reference
        (stateOf { amount := "5", notes := "   ", weight := JsVal.num (JsNum.fin 1) })).2.1
        (by decide)).2.1⟩⟩

/-! ### Balance class and text -/

/-- C18: for every numeric balance `b`, finite or infinite, `getBalanceClass`
returns `"positive"` iff `b > 0`, `"negative"` iff `b < 0` and `"neutral"` iff
`b = 0`; the three class names are different, so exactly one is returned. -/
theorem getBalanceClass_iff (q : ℚ) :
    (getBalanceClass (JsNum.fin q) = "positive" ↔ 0 < q) ∧
    (getBalanceClass (JsNum.fin q) = "negative" ↔ q < 0) ∧
    (getBalanceClass (JsNum.fin q) = "neutral" ↔ q = 0) ∧
    getBalanceClass JsNum.posInf = "positive" ∧
    getBalanceClass JsNum.negInf = "negative" ∧
    ("positive" : String) ≠ "negative" ∧ ("positive" : String) ≠ "neutral" ∧
    ("negative" : String) ≠ "neutral" := by
  have h1 : ("positive" : String) ≠ "negative" := by decide
  have h2 : ("positive" : String) ≠ "neutral" := by decide
  have h3 : ("negative" : String) ≠ "neutral" := by decide
  refine ⟨?_, ?_, ?_, by decide, by decide, h1, h2, h3⟩
  · unfold getBalanceClass
    simp only [JsNum.lt, decide_eq_true_eq]
    split_ifs with ha hb
    · exact ⟨fun _ => ha, fun _ => rfl⟩
    · exact ⟨fun h => absurd h.symm h1, fun h => absurd h ha⟩
    · exact ⟨fun h => absurd h.symm h2, fun h => absurd h ha⟩
  · unfold getBalanceClass
    simp only [JsNum.lt, decide_eq_true_eq]
    split_ifs with ha hb
    · exact ⟨fun h => absurd h h1, fun h => absurd ha (not_lt.2 h.le)⟩
    · exact ⟨fun _ => hb, fun _ => rfl⟩
    · exact ⟨fun h => absurd h.symm h3, fun h => absurd h hb⟩
  · unfold getBalanceClass
    simp only [JsNum.lt, decide_eq_true_eq]
    split_ifs with ha hb
    · exact ⟨fun h => absurd h h2, fun h => absurd ha (by rw [h]; exact lt_irrefl 0)⟩
    · exact ⟨fun h => absurd h h3, fun h => absurd hb (by rw [h]; exact lt_irrefl 0)⟩
    · exact ⟨fun _ => le_antisymm (not_lt.1 ha) (not_lt.1 hb), fun _ => rfl⟩

/-- C19: for every numeric balance `b`, `getBalanceText` is `"+"`, the formatted
value of `b` and the to-receive suffix when `b > 0`; the formatted value of
`|b|`, a positive magnitude, and the to-pay suffix when `b < 0`; and the
formatted value of 0 and the even suffix when `b = 0`.  In each case
`getBalanceClass` gives the matching class. -/
theorem getBalanceText_cases (js : Builtins) (q : ℚ) :
    (0 < q →
      getBalanceText js (JsNum.fin q) =
        "+" ++ formatCurrency js (JsVal.num (JsNum.fin q)) ++ " alacak" ∧
      getBalanceClass (JsNum.fin q) = "positive") ∧
    (q < 0 →
      getBalanceText js (JsNum.fin q) =
        formatCurrency js (JsVal.num (JsNum.fin |q|)) ++ " verecek" ∧
      0 < |q| ∧ getBalanceClass (JsNum.fin q) = "negative") ∧
    (q = 0 →
      getBalanceText js (JsNum.fin q) =
        formatCurrency js (JsVal.num (JsNum.fin 0)) ++ " eşit" ∧
      getBalanceClass (JsNum.fin q) = "neutral") := by
  refine ⟨fun h => ?_, fun h => ?_, fun h => ?_⟩
  · have hp : JsNum.lt (JsNum.fin 0) (JsNum.fin q) = true := by simp [JsNum.lt, h]
    simp [getBalanceText, getBalanceClass, hp]
  · have hp : ¬ JsNum.lt (JsNum.fin 0) (JsNum.fin q) = true := by
      simp [JsNum.lt, h.le]
    have hn : JsNum.lt (JsNum.fin q) (JsNum.fin 0) = true := by simp [JsNum.lt, h]
    simp [getBalanceText, getBalanceClass, hp, hn, JsNum.abs, h.ne]
  · subst h
    have hp : ¬ JsNum.lt (JsNum.fin 0) (JsNum.fin 0) = true := by simp [JsNum.lt]
    simp [getBalanceText, getBalanceClass, hp]

/-- Witness for `getBalanceText_cases`: the balance -3.25 is shown with the
magnitude 3.25 and the to-pay suffix; without the locale-aware formatter the text
is `"3.25 ₺ verecek"`. -/
theorem getBalanceText_cases_witness :
    getBalanceText Builtins.reference (JsNum.fin (-3.25)) =
      formatCurrency Builtins.reference (JsVal.num (JsNum.fin 3.25)) ++ " verecek" ∧
    getBalanceClass (JsNum.fin (-3.25)) = "negative" ∧
    formatCurrency Builtins.reference (JsVal.num (JsNum.fin (mkRat 13 4))) ++ " verecek" =
      "3.25 ₺ verecek" ∧
    mkRat 13 4 = (3.25 : ℚ) := by
  have h := (getBalanceText_cases Builtins.reference (-3.25)).2.1 (by norm_num)
  have habs : |(-3.25 : ℚ)| = 3.25 := by norm_num [abs_of_neg]
  rw [habs] at h
  exact ⟨h.1, h.2.2, by decide, by norm_num⟩

/-! ### Outcome of an expense submission -/

/-- C20: for every draft that passes validation the request is posted with
`loading` set and `expenses` untouched.  If the request succeeds, the draft is
reset to amount `""`, notes `""`, weight 1.0 and a summary request is issued,
`expenses` being untouched until its response arrives; `loading` is false once
that refresh has settled, whichever way.  If the request fails, the draft and
`expenses` are untouched, the error banner is set and `loading` is false. -/
theorem handleAddExpense_outcome (js : Builtins) (st later refreshing : State)
    (o : SummaryOutcome) (hok : rejects js st.newExpense = false) :
    ((handleAddExpense js st).posted = st.posted ++ [expenseBody js st] ∧
      (handleAddExpense js st).loading = true ∧
      (handleAddExpense js st).expenses = st.expenses) ∧
    ((handleAddExpenseThen later).newExpense =
        { amount := "", notes := "", weight := JsVal.num (JsNum.fin 1) } ∧
      (handleAddExpenseThen later).summaryGets = later.summaryGets + 1 ∧
      (handleAddExpenseThen later).expenses = later.expenses ∧
      (handleAddExpenseThen later).posted = later.posted ∧
      (handleAddExpenseRefreshed o refreshing).loading = false) ∧
    ((handleAddExpenseCatch later).newExpense = later.newExpense ∧
      (handleAddExpenseCatch later).expenses = later.expenses ∧
      (handleAddExpenseCatch later).error = some addErrorText ∧
      (handleAddExpenseCatch later).loading = false) := by
  refine ⟨?_, ⟨rfl, rfl, rfl, rfl, ?_⟩, ⟨rfl, rfl, rfl, rfl⟩⟩
  · unfold handleAddExpense
    rw [hok]
    exact ⟨rfl, rfl, rfl⟩
  · cases o <;> rfl

/-- Witness for `handleAddExpense_outcome`: the draft amount `"5"`, notes `"x"`,
weight 1 is posted and `loading` is set. -/
theorem handleAddExpense_outcome_witness :
    rejects Builtins.reference
      { amount := "5", notes := "x", weight := JsVal.num (JsNum.fin 1) } = false ∧
    (handleAddExpense Builtins.reference
      (stateOf { amount := "5", notes := "x", weight := JsVal.num (JsNum.fin 1) })).loading =
      true :=
  ⟨by decide,
    (handleAddExpense_outcome Builtins.reference
      (stateOf { amount := "5", notes := "x", weight := JsVal.num (JsNum.fin 1) })
      (stateOf emptyDraft) (stateOf emptyDraft) SummaryOutcome.failed (by decide)).1.2.1⟩

end ExpenseSplitter

/-! ### What the optimistic update of a slot vote changes -/

namespace SlotPlanner

theorem VoteMap.get_set_of_ne (m : VoteMap) (slotId key : String) (choice : VoteChoice)
    (h : key ≠ slotId) : (m.set slotId choice).get key = m.get key := by
  induction m with
  | nil => simp [VoteMap.set, VoteMap.get, h.symm]
  | cons kv rest ih =>
    rcases kv with ⟨k, v⟩
    by_cases hk : k = slotId
    · subst hk
      simp [VoteMap.set, VoteMap.get, h.symm]
    · by_cases hk2 : k = key
      · subst hk2
        simp [VoteMap.set, VoteMap.get, hk]
      · simp [VoteMap.set, VoteMap.get, hk, hk2, ih]

theorem slot_apply_eq_specApply (myVotes : VoteMap) (slotId : String)
    (choice : VoteChoice) (hp : myVotes.get slotId ≠ some choice) (s : Slot)
    (hb : s.slot_id = slotId →
      (-maxSafeInteger ≤ s.yes_votes ∧ s.yes_votes ≤ maxSafeInteger) ∧
      (-maxSafeInteger ≤ s.no_votes ∧ s.no_votes ≤ maxSafeInteger)) :
    optimisticApply myVotes slotId choice s =
      specApply (myVotes.get slotId) slotId choice s := by
  unfold optimisticApply specApply
  by_cases hid : s.slot_id = slotId
  · obtain ⟨⟨hy1, hy2⟩, hn1, hn2⟩ := hb hid
    unfold maxSafeInteger at hy1 hy2 hn1 hn2
    have ey := jsAdd_one_of_safe s.yes_votes (by omega) (by omega)
    have en := jsAdd_one_of_safe s.no_votes (by omega) (by omega)
    have dy := jsSub_one_of_safe s.yes_votes (by omega) (by omega)
    have dn := jsSub_one_of_safe s.no_votes (by omega) (by omega)
    simp only [hid, ne_eq, not_true_eq_false, if_false, if_true, orZero_eq, mathMax0_eq_max]
    generalize myVotes.get slotId = prior at hp
    rcases prior with _ | p
    · cases choice <;> simp [ey, en]
    · cases p <;> cases choice <;> simp at hp ⊢ <;> simp [ey, en, dy, dn]
  · simp [hid]

/-- C21, as stated, fails for a count of `2 ^ 53`: voting `yes` on a slot with
`yes_votes = 2 ^ 53` and no prior selection leaves `yes_votes = 2 ^ 53`, because
the binary64 sum `2 ^ 53 + 1` is `2 ^ 53`; the claim has count + 1. -/
theorem handleVote_apply_spec_counterexample :
    (stateOf [slotOf "s1" 9007199254740992 0] []).myVotes.get "s1" ≠
      some VoteChoice.yes ∧
    (handleVote "s1" VoteChoice.yes
      (stateOf [slotOf "s1" 9007199254740992 0] [])).slots =
      [slotOf "s1" 9007199254740992 0] ∧
    (stateOf [slotOf "s1" 9007199254740992 0] []).slots.map
        (specApply none "s1" VoteChoice.yes) =
      [slotOf "s1" 9007199254740993 0] := by
  decide

/-- C21 (amended): for every slot list whose slots with id `slotId` have counts
that are safe integers (magnitude at most `2 ^ 53 - 1`), every prior selection
`p = myVotes[slotId]` and choice `c` different from `p` (or `p` absent), the
optimistic update maps the list slot by slot, so it keeps length and order; in a
target slot the count for `c` becomes count + 1, the count for `p`, if any,
becomes max(0, count - 1) and every other field stays; every other slot stays;
`myVotes` reads `c` at `slotId` and what it read before at every other key.
`handleVote` performs exactly this update whenever its guard lets the call
through. -/
theorem handleVote_apply_spec (st : State) (slotId : String) (choice : VoteChoice)
    (hp : st.myVotes.get slotId ≠ some choice)
    (hb : ∀ s ∈ st.slots, s.slot_id = slotId →
      (-maxSafeInteger ≤ s.yes_votes ∧ s.yes_votes ≤ maxSafeInteger) ∧
      (-maxSafeInteger ≤ s.no_votes ∧ s.no_votes ≤ maxSafeInteger)) :
    st.slots.map (optimisticApply st.myVotes slotId choice) =
      st.slots.map (specApply (st.myVotes.get slotId) slotId choice) ∧
    (st.slots.map (optimisticApply st.myVotes slotId choice)).length = st.slots.length ∧
    (st.myVotes.set slotId choice).get slotId = some choice ∧
    (∀ key, key ≠ slotId → (st.myVotes.set slotId choice).get key = st.myVotes.get key) ∧
    (st.voteLoadingId ≠ some slotId →
      (handleVote slotId choice st).slots =
        st.slots.map (specApply (st.myVotes.get slotId) slotId choice) ∧
      (handleVote slotId choice st).myVotes = st.myVotes.set slotId choice) := by
  have hmap : st.slots.map (optimisticApply st.myVotes slotId choice) =
      st.slots.map (specApply (st.myVotes.get slotId) slotId choice) :=
    List.map_congr_left
      (fun s hs => slot_apply_eq_specApply st.myVotes slotId choice hp s (hb s hs))
  refine ⟨hmap, List.length_map _ _, VoteMap.get_set_self _ _ _,
    fun key hk => VoteMap.get_set_of_ne _ _ _ _ hk, fun hg => ?_⟩
  unfold handleVote
  rw [if_neg hg]
  exact ⟨hmap, rfl⟩

/-- Witness for `handleVote_apply_spec`: slot `s1` at 0 `yes` and 2 `no` votes
with prior selection `yes`, voted `no`, goes to 0 and 3; slot `s2` stays. -/
theorem handleVote_apply_spec_witness :
    VoteMap.get [("s1", VoteChoice.yes)] "s1" ≠ some VoteChoice.no ∧
    (handleVote "s1" VoteChoice.no
      (stateOf [slotOf "s1" 0 2, slotOf "s2" 5 5] [("s1", VoteChoice.yes)])).slots =
      [slotOf "s1" 0 3, slotOf "s2" 5 5] :=
  ⟨by decide,
    (((handleVote_apply_spec
      (stateOf [slotOf "s1" 0 2, slotOf "s2" 5 5] [("s1", VoteChoice.yes)]) "s1"
      VoteChoice.no (by decide) (by decide)).2.2.2.2 (by decide)).1).trans (by decide)⟩

end SlotPlanner

/-! ### What the optimistic update of a poll vote changes -/

namespace PollVoting

/-- With a truthy prior selection and votes that are safe integers, the
optimistic update of a choice is the update the specification words. -/
theorem poll_apply_eq_specApply (prior choiceId : JsId) (hpc : choiceId ≠ prior)
    (ht : prior.truthy = true) (c : PollChoice)
    (hb : -maxSafeInteger ≤ c.votes ∧ c.votes ≤ maxSafeInteger) :
    optimisticApply (some prior) choiceId c = specApply prior choiceId c := by
  rcases c with ⟨cid, text, loc, v⟩
  simp only at hb
  unfold maxSafeInteger at hb
  have ev := jsAdd_one_of_safe v (by omega) (by omega)
  have dv := jsSub_one_of_safe v (by omega) (by omega)
  simp only [optimisticApply, specApply, orZero_eq, truthyOpt, ht, true_and,
    Option.some.injEq, mathMax0_eq_max]
  by_cases h1 : cid = choiceId
  · have h2 : ¬ cid = prior := fun h => hpc (h1.symm.trans h)
    simp [h1, h2, hpc, ev]
  · by_cases h2 : cid = prior
    · subst h2
      simp [h1, dv]
    · simp [h1, h2]

/-- C22 (code defect, evaluated): with choices `0` (3 votes) and `1` (0 votes),
choice `0` the recorded selection and choice `1` voted, `handleVote` leaves choice
`0` at its 3 votes: the test `myChoiceId && ...` is false for the id `0`, so the
old vote is not taken back.  The update the claim describes gives 2 and 1, and
it is what `handleVote` does when the selection is choice `1` and choice `2` is
voted.  The selection is choice `0` right after a click on that choice. -/
theorem handleVote_prior_zero_kept :
    ([choiceOf (JsId.num 0) 3, choiceOf (JsId.num 1) 0].map
        (fun c => c.choice_id)).Nodup ∧
    (handleVote (JsId.num 0)
      (stateOf [choiceOf (JsId.num 0) 2, choiceOf (JsId.num 1) 0] none)).choices =
      [choiceOf (JsId.num 0) 3, choiceOf (JsId.num 1) 0] ∧
    (handleVote (JsId.num 0)
      (stateOf [choiceOf (JsId.num 0) 2, choiceOf (JsId.num 1) 0] none)).myChoiceId =
      some (JsId.num 0) ∧
    (stateOf [choiceOf (JsId.num 0) 3, choiceOf (JsId.num 1) 0]
      (some (JsId.num 0))).myChoiceId = some (JsId.num 0) ∧
    (handleVote (JsId.num 1)
      (stateOf [choiceOf (JsId.num 0) 3, choiceOf (JsId.num 1) 0]
        (some (JsId.num 0)))).choices =
      [choiceOf (JsId.num 0) 3, choiceOf (JsId.num 1) 1] ∧
    [choiceOf (JsId.num 0) 3, choiceOf (JsId.num 1) 0].map
        (specApply (JsId.num 0) (JsId.num 1)) =
      [choiceOf (JsId.num 0) 2, choiceOf (JsId.num 1) 1] ∧
    (handleVote (JsId.num 2)
      (stateOf [choiceOf (JsId.num 1) 3, choiceOf (JsId.num 2) 0]
        (some (JsId.num 1)))).choices =
      [choiceOf (JsId.num 1) 2, choiceOf (JsId.num 2) 1] := by
  decide

end PollVoting

/-! ### The fallback of `formatCurrency`, the notes cap, and the two validators -/

theorem trimChars_sublist (cs : List Char) : (trimChars cs).Sublist cs := by
  unfold trimChars
  have h1 : ((cs.dropWhile isJsWhiteSpace).reverse.dropWhile isJsWhiteSpace).Sublist
      (cs.dropWhile isJsWhiteSpace).reverse := List.dropWhile_sublist _
  have h2 := h1.reverse
  rw [List.reverse_reverse] at h2
  exact h2.trans (List.dropWhile_sublist _)

theorem jsLength_jsTrim_le (s : String) : jsLength (jsTrim s) ≤ jsLength s := by
  unfold jsLength jsTrim
  exact ((trimChars_sublist s.toList).map _).sum_le_sum (fun _ _ => Nat.zero_le _)

namespace ExpenseSplitter

theorem canSubmit_not_rejects (js : Builtins) (st : State) (h : canSubmit js st = true) :
    rejects js st.newExpense = false ∧ (weight js st.newExpense).isFinite = true := by
  unfold canSubmit at h
  simp only [Bool.and_eq_true, Bool.not_eq_true', decide_eq_true_eq] at h
  obtain ⟨⟨⟨⟨⟨_, _⟩, hnan⟩, hpos⟩, hlen⟩, hfin⟩ := h
  refine ⟨?_, hfin⟩
  have hne : trimmedNotes st.newExpense ≠ "" := (string_length_pos_iff _).1 hlen
  have hle : JsNum.le (amt js st.newExpense) (JsNum.fin 0) = false := by
    rcases (JsNum.lt_zero_iff _).1 hpos with h | ⟨q, h, hq⟩
    · rw [h]; rfl
    · rw [h]
      simp [JsNum.le, hq]
  simp [rejects, hne, hnan, hle]

/-- C23 (code defect, evaluated): with the locale-aware formatter unavailable, a
number, a numeric string, `null` and `undefined` are rendered with two decimals
and the currency sign, but a non-numeric string is rendered as `"NaN ₺"`, although
the value the locale-aware path formats for it, `Number(amount) || 0`, is 0. -/
theorem formatCurrency_fallback_evaluated :
    Builtins.reference.intlFormat (JsNum.fin 0) = none ∧
    formatCurrency Builtins.reference (JsVal.str "abc") = "NaN ₺" ∧
    (toNumber Builtins.reference (JsVal.str "abc")).orZero = JsNum.fin 0 ∧
    Builtins.reference.toFixed2 (JsNum.fin 0) ++ " ₺" = "0.00 ₺" ∧
    formatCurrency Builtins.reference (JsVal.num (JsNum.fin (mkRat 25 2))) = "12.50 ₺" ∧
    formatCurrency Builtins.reference (JsVal.str "12.5") = "12.50 ₺" ∧
    formatCurrency Builtins.reference JsVal.null = "0.00 ₺" ∧
    formatCurrency Builtins.reference JsVal.undefined = "0.00 ₺" ∧
    formatCurrency Builtins.reference (JsVal.num JsNum.nan) = "0.00 ₺" := by
  decide

/-- C24: the notes of a draft are written only by the notes input, whose
`maxLength` of 120 bounds their length.  For every such draft that the validation
accepts (`canSubmit` true, or `handleAddExpense` proceeding to the request) the
notes posted are the trimmed notes of the draft, never longer than the notes the
draft holds, so they have at most 120 characters. -/
theorem notes_cap_of_input (js : Builtins) (st : State)
    (hacc : canSubmit js st = true ∨ rejects js st.newExpense = false)
    (hlen : jsLength st.newExpense.notes ≤ notesMaxLength) :
    (handleAddExpense js st).posted = st.posted ++ [expenseBody js st] ∧
    (expenseBody js st).notes = jsTrim st.newExpense.notes ∧
    jsLength (expenseBody js st).notes ≤ jsLength st.newExpense.notes ∧
    jsLength (expenseBody js st).notes ≤ notesMaxLength := by
  have hok : rejects js st.newExpense = false := by
    rcases hacc with h | h
    · exact (canSubmit_not_rejects js st h).1
    · exact h
  have hle : jsLength (expenseBody js st).notes ≤ jsLength st.newExpense.notes :=
    jsLength_jsTrim_le _
  refine ⟨?_, rfl, hle, hle.trans hlen⟩
  unfold handleAddExpense
  rw [hok]
  rfl

/-- Witness for `notes_cap_of_input`: the draft amount `"5"`, notes `" Pizza "`
is accepted and the notes posted have 5 characters. -/
theorem notes_cap_of_input_witness :
    rejects Builtins.reference
      { amount := "5", notes := " Pizza ", weight := JsVal.num (JsNum.fin 1) } = false ∧
    jsLength (" Pizza " : String) ≤ notesMaxLength ∧
    jsLength (expenseBody Builtins.reference
      (stateOf { amount := "5", notes := " Pizza ",
                 weight := JsVal.num (JsNum.fin 1) })).notes ≤ notesMaxLength ∧
    jsLength (expenseBody Builtins.reference
      (stateOf { amount := "5", notes := " Pizza ",
                 weight := JsVal.num (JsNum.fin 1) })).notes = 5 :=
  ⟨by decide, by decide,
    (notes_cap_of_input Builtins.reference
      (stateOf { amount := "5", notes := " Pizza ", weight := JsVal.num (JsNum.fin 1) })
      (Or.inr (by decide)) (by decide)).2.2.2,
    by decide⟩

/-- C29: for every draft and every `loading` and `isFetching` state, if
`canSubmit` is true then the guard of `handleAddExpense` does not reject the
draft, the request is posted, and the weight it carries is the converted draft
weight `Number(newExpense.weight)`, a finite number: the 1.0 default is not
used. -/
theorem canSubmit_implies_accepted (js : Builtins) (st : State)
    (h : canSubmit js st = true) :
    rejects js st.newExpense = false ∧
    (handleAddExpense js st).posted = st.posted ++ [expenseBody js st] ∧
    (expenseBody js st).weight = weight js st.newExpense ∧
    ∃ w, (expenseBody js st).weight = JsNum.fin w := by
  obtain ⟨hok, hfin⟩ := canSubmit_not_rejects js st h
  have hw : (expenseBody js st).weight = weight js st.newExpense := by
    simp [expenseBody, hfin]
  refine ⟨hok, ?_, hw, ?_⟩
  · unfold handleAddExpense
    rw [hok]
    rfl
  · rw [hw]
    exact (JsNum.isFinite_iff _).1 hfin

/-- Witness for `canSubmit_implies_accepted`: the draft amount `"12,50"`, notes
`" Pizza "`, weight 0.5 can be submitted and is posted with weight 0.5. -/
theorem canSubmit_implies_accepted_witness :
    canSubmit Builtins.reference
      (stateOf { amount := "12,50", notes := " Pizza ",
                 weight := JsVal.num (JsNum.fin (mkRat 1 2)) }) = true ∧
    (expenseBody Builtins.reference
      (stateOf { amount := "12,50", notes := " Pizza ",
                 weight := JsVal.num (JsNum.fin (mkRat 1 2)) })).weight =
      JsNum.fin (mkRat 1 2) :=
  ⟨by decide,
    ((canSubmit_implies_accepted Builtins.reference
      (stateOf { amount := "12,50", notes := " Pizza ",
                 weight := JsVal.num (JsNum.fin (mkRat 1 2)) })
      (by decide)).2.2.1).trans (by decide)⟩

end ExpenseSplitter

/-! ### When the rollback is lossless -/

theorem SlotPlanner.slot_rollback_apply_of_counted (myVotes : SlotPlanner.VoteMap)
    (slotId : String) (choice : SlotPlanner.VoteChoice) (s : SlotPlanner.Slot)
    (hy : myVotes.get slotId = some SlotPlanner.VoteChoice.yes → 1 ≤ s.yes_votes)
    (hn : myVotes.get slotId = some SlotPlanner.VoteChoice.no → 1 ≤ s.no_votes)
    (hy0 : 0 ≤ s.yes_votes ∧ s.yes_votes ≤ maxSafeInteger)
    (hn0 : 0 ≤ s.no_votes ∧ s.no_votes ≤ maxSafeInteger) :
    SlotPlanner.rollback myVotes slotId choice
      (SlotPlanner.optimisticApply myVotes slotId choice s) = s := by
  rcases s with ⟨sid, st, et, y, n, w, uc⟩
  simp only at hy hn hy0 hn0
  unfold maxSafeInteger at hy0 hn0
  obtain ⟨hy1, hy2⟩ := hy0
  obtain ⟨hn1, hn2⟩ := hn0
  unfold SlotPlanner.rollback SlotPlanner.optimisticApply
  by_cases hid : sid = slotId
  · generalize myVotes.get slotId = prior at hy hn
    simp only [hid, ne_eq, not_true_eq_false, if_false, orZero_eq,
      SlotPlanner.Slot.mk.injEq, true_and, and_true]
    rcases prior with _ | p
    · cases choice <;>
        simp (disch := omega) [jsAdd_one_of_safe, jsSub_one_of_safe, mathMax0_eq_max]
    · cases p <;> cases choice <;> simp at hy hn <;>
        simp (disch := omega) [jsAdd_one_of_safe, jsSub_one_of_safe, mathMax0_eq_max]
  · simp [hid]

theorem PollVoting.poll_rollback_apply_of_counted (myChoiceId : Option JsId)
    (choiceId : JsId) (c : PollVoting.PollChoice)
    (hv : 0 ≤ c.votes ∧ c.votes ≤ maxSafeInteger)
    (h1 : some c.choice_id = myChoiceId → 1 ≤ c.votes) :
    PollVoting.rollback myChoiceId choiceId
      (PollVoting.optimisticApply myChoiceId choiceId c) = c := by
  rcases c with ⟨cid, text, loc, v⟩
  simp only at hv h1
  unfold maxSafeInteger at hv
  obtain ⟨hv1, hv2⟩ := hv
  simp only [PollVoting.rollback, PollVoting.optimisticApply, orZero_eq,
    PollVoting.PollChoice.mk.injEq, true_and]
  by_cases hp : truthyOpt myChoiceId = true ∧ some cid = myChoiceId
  · have hv3 := h1 hp.2
    by_cases h2 : cid = choiceId
    · subst h2
      have e1 : mathMax0 (v - 1) = v - 1 := mathMax0_of_nonneg (by omega)
      have e2 : mathMax0 (v - 1 + 1 - 1) = v - 1 := by
        rw [mathMax0_of_nonneg (by omega)]
        omega
      simp only [hp, and_self, if_true]
      rw [jsSub_one_of_safe v (by omega) (by omega), e1,
        jsAdd_one_of_safe (v - 1) (by omega) (by omega),
        jsSub_one_of_safe (v - 1 + 1) (by omega) (by omega), e2,
        jsAdd_one_of_safe (v - 1) (by omega) (by omega)]
      omega
    · have e1 : mathMax0 (v - 1) = v - 1 := mathMax0_of_nonneg (by omega)
      simp only [hp, h2, and_self, if_true, if_false]
      rw [jsSub_one_of_safe v (by omega) (by omega), e1,
        jsAdd_one_of_safe (v - 1) (by omega) (by omega)]
      omega
  · by_cases h2 : cid = choiceId
    · subst h2
      have e1 : mathMax0 (v + 1 - 1) = v := by
        rw [mathMax0_of_nonneg (by omega)]
        omega
      simp only [hp, if_true, if_false]
      rw [jsAdd_one_of_safe v (by omega) (by omega),
        jsSub_one_of_safe (v + 1) (by omega) (by omega), e1]
    · simp only [hp, h2, if_false]

/-- C25, as stated, fails for a count of `2 ^ 53`: with no prior selection, a
`yes` vote on a slot with `yes_votes = 2 ^ 53` leaves the count at `2 ^ 53` (the
binary64 sum `2 ^ 53 + 1` is `2 ^ 53`), and the rollback of the rejected vote
takes 1 off: the slot ends at `2 ^ 53 - 1`.  The same happens to a poll choice
with `2 ^ 53` votes. -/
theorem rollback_lossless_counterexample :
    ((SlotPlanner.stateOf [SlotPlanner.slotOf "s1" 9007199254740992 0] []).myVotes.get "s1" =
        none ∧
      (SlotPlanner.handleVote "s1" SlotPlanner.VoteChoice.yes
        (SlotPlanner.stateOf [SlotPlanner.slotOf "s1" 9007199254740992 0] [])).pending =
        [{ slotId := "s1", choice := SlotPlanner.VoteChoice.yes, myVotes := [] }] ∧
      (SlotPlanner.handleVoteCatch
        { slotId := "s1", choice := SlotPlanner.VoteChoice.yes, myVotes := [] }
        { status := some 429 }
        (SlotPlanner.handleVote "s1" SlotPlanner.VoteChoice.yes
          (SlotPlanner.stateOf [SlotPlanner.slotOf "s1" 9007199254740992 0] []))).slots =
        [SlotPlanner.slotOf "s1" 9007199254740991 0]) ∧
    ((PollVoting.handleVote (JsId.num 1)
        (PollVoting.stateOf [PollVoting.choiceOf (JsId.num 1) 9007199254740992] none)).pending =
        [{ choiceId := JsId.num 1, prevChoice := none }] ∧
      (PollVoting.handleVoteCatch { choiceId := JsId.num 1, prevChoice := none }
        { status := some 429 }
        (PollVoting.handleVote (JsId.num 1)
          (PollVoting.stateOf [PollVoting.choiceOf (JsId.num 1) 9007199254740992]
            none))).choices =
        [PollVoting.choiceOf (JsId.num 1) 9007199254740991]) := by
  decide

/-- C25 (amended): in both vote handlers, for every state whose counts are
non-negative safe integers (at most `2 ^ 53 - 1`) and every choice, if there is no
prior selection, or the count of the prior selection is at least 1 before the
call, then `handleVote` (let through by its guard) followed by the `catch` block
of that call, run with the values the call closed over, gives back the list,
every vote count with its value of before the call. -/
theorem rollback_lossless :
    (∀ (st : SlotPlanner.State) (slotId : String) (choice : SlotPlanner.VoteChoice)
        (error : RequestError),
      st.voteLoadingId ≠ some slotId →
      (∀ s ∈ st.slots, (0 ≤ s.yes_votes ∧ s.yes_votes ≤ maxSafeInteger) ∧
        (0 ≤ s.no_votes ∧ s.no_votes ≤ maxSafeInteger)) →
      (st.myVotes.get slotId = none ∨
        (∀ s ∈ st.slots, s.slot_id = slotId →
          (st.myVotes.get slotId = some SlotPlanner.VoteChoice.yes → 1 ≤ s.yes_votes) ∧
          (st.myVotes.get slotId = some SlotPlanner.VoteChoice.no → 1 ≤ s.no_votes))) →
      (SlotPlanner.handleVote slotId choice st).pending =
        st.pending ++ [{ slotId := slotId, choice := choice, myVotes := st.myVotes }] ∧
      (SlotPlanner.handleVoteCatch
        { slotId := slotId, choice := choice, myVotes := st.myVotes } error
        (SlotPlanner.handleVote slotId choice st)).slots = st.slots) ∧
    (∀ (st : PollVoting.State) (choiceId : JsId) (error : RequestError),
      st.pollCreated = true →
      (∀ c ∈ st.choices, 0 ≤ c.votes ∧ c.votes ≤ maxSafeInteger) →
      (st.myChoiceId = none ∨
        (∀ c ∈ st.choices, some c.choice_id = st.myChoiceId → 1 ≤ c.votes)) →
      (PollVoting.handleVote choiceId st).pending =
        st.pending ++ [{ choiceId := choiceId, prevChoice := st.myChoiceId }] ∧
      (PollVoting.handleVoteCatch
        { choiceId := choiceId, prevChoice := st.myChoiceId } error
        (PollVoting.handleVote choiceId st)).choices = st.choices) := by
  constructor
  · intro st slotId choice error hg hnn hcond
    have h1 : SlotPlanner.handleVote slotId choice st =
        { st with
          voteLoadingId := some slotId
          slots := st.slots.map (SlotPlanner.optimisticApply st.myVotes slotId choice)
          myVotes := st.myVotes.set slotId choice
          posted := st.posted ++
            [{ user_id := st.userId, slot_id := slotId, choice := choice }]
          pending := st.pending ++
            [{ slotId := slotId, choice := choice, myVotes := st.myVotes }] } := by
      unfold SlotPlanner.handleVote
      rw [if_neg hg]
    rw [h1]
    refine ⟨rfl, ?_⟩
    simp only [SlotPlanner.handleVoteCatch]
    rw [List.map_map, map_eq_self_iff]
    intro s hs
    by_cases hid : s.slot_id = slotId
    · apply SlotPlanner.slot_rollback_apply_of_counted _ _ _ _ _ _ (hnn s hs).1 (hnn s hs).2
      · intro hp
        rcases hcond with h | h
        · rw [h] at hp
          exact absurd hp (by simp)
        · exact (h s hs hid).1 hp
      · intro hp
        rcases hcond with h | h
        · rw [h] at hp
          exact absurd hp (by simp)
        · exact (h s hs hid).2 hp
    · simp [SlotPlanner.rollback, SlotPlanner.optimisticApply, hid]
  · intro st choiceId error hc hnn hcond
    have h1 : PollVoting.handleVote choiceId st =
        { st with
          choices := st.choices.map (PollVoting.optimisticApply st.myChoiceId choiceId)
          myChoiceId := some choiceId
          posted := st.posted ++
            [{ user_id := st.userId, poll_id := st.pollId.getD (JsId.num 1),
               choice_id := choiceId }]
          pending := st.pending ++
            [{ choiceId := choiceId, prevChoice := st.myChoiceId }] } := by
      unfold PollVoting.handleVote
      simp [hc]
    rw [h1]
    refine ⟨rfl, ?_⟩
    simp only [PollVoting.handleVoteCatch]
    rw [List.map_map, map_eq_self_iff]
    intro c hmem
    apply PollVoting.poll_rollback_apply_of_counted st.myChoiceId choiceId c (hnn c hmem)
    intro hid
    rcases hcond with h | h
    · rw [h] at hid
      exact absurd hid (by simp)
    · exact h c hmem hid

/-- Witness for `rollback_lossless`: a slot at 1 `yes` vote whose prior selection
`yes` is changed to `no`, and a poll in which the selected choice has 1 vote, both
come back as they were when the submission is rejected. -/
theorem rollback_lossless_witness :
    (SlotPlanner.handleVoteCatch
      { slotId := "s1", choice := SlotPlanner.VoteChoice.no,
        myVotes := [("s1", SlotPlanner.VoteChoice.yes)] }
      { status := some 429 }
      (SlotPlanner.handleVote "s1" SlotPlanner.VoteChoice.no
        (SlotPlanner.stateOf [SlotPlanner.slotOf "s1" 1 0]
          [("s1", SlotPlanner.VoteChoice.yes)]))).slots = [SlotPlanner.slotOf "s1" 1 0] ∧
    (PollVoting.handleVoteCatch
      { choiceId := JsId.num 2, prevChoice := some (JsId.num 1) }
      { status := none }
      (PollVoting.handleVote (JsId.num 2)
        (PollVoting.stateOf
          [PollVoting.choiceOf (JsId.num 1) 1, PollVoting.choiceOf (JsId.num 2) 0]
          (some (JsId.num 1))))).choices =
      [PollVoting.choiceOf (JsId.num 1) 1, PollVoting.choiceOf (JsId.num 2) 0] :=
  ⟨(rollback_lossless.1
      (SlotPlanner.stateOf [SlotPlanner.slotOf "s1" 1 0]
        [("s1", SlotPlanner.VoteChoice.yes)])
      "s1" SlotPlanner.VoteChoice.no { status := some 429 } (by decide) (by decide)
      (Or.inr (by decide))).2,
    (rollback_lossless.2
      (PollVoting.stateOf
        [PollVoting.choiceOf (JsId.num 1) 1, PollVoting.choiceOf (JsId.num 2) 0]
        (some (JsId.num 1)))
      (JsId.num 2) { status := none } (by decide) (by decide) (Or.inr (by decide))).2⟩

/-! ### The total of the poll votes under the optimistic update -/

namespace PollVoting

/-- C26 (code defect, evaluated): with choices `0` (3 votes) and `1` (0 votes),
choice `0` the recorded selection and choice `1` voted, the prior selection occurs
in the list with at least 1 vote, yet `handleVote` takes `totalVotes` from 3 to 4:
the test `myChoiceId && ...` is false for the id `0`, so the old vote is not taken
back.  With choice `1` selected instead of choice `0` the total stays 3. -/
theorem totalVotes_prior_zero_grows :
    ([choiceOf (JsId.num 0) 3, choiceOf (JsId.num 1) 0].map
        (fun c => c.choice_id)).Nodup ∧
    JsId.num 1 ∈ [choiceOf (JsId.num 0) 3, choiceOf (JsId.num 1) 0].map
        (fun c => c.choice_id) ∧
    (stateOf [choiceOf (JsId.num 0) 3, choiceOf (JsId.num 1) 0]
      (some (JsId.num 0))).myChoiceId = some (JsId.num 0) ∧
    totalVotes
      (stateOf [choiceOf (JsId.num 0) 3, choiceOf (JsId.num 1) 0]
        (some (JsId.num 0))).choices = 3 ∧
    totalVotes
      (handleVote (JsId.num 1)
        (stateOf [choiceOf (JsId.num 0) 3, choiceOf (JsId.num 1) 0]
          (some (JsId.num 0)))).choices = 4 ∧
    totalVotes
      (handleVote (JsId.num 2)
        (stateOf [choiceOf (JsId.num 1) 3, choiceOf (JsId.num 2) 0]
          (some (JsId.num 1)))).choices = 3 := by
  decide

/-! ### The winning choice -/

theorem winning_fold (rest pre mid : List PollChoice) (acc : PollChoice)
    (hpre : ∀ x ∈ pre, x.votes < acc.votes) (hmid : ∀ x ∈ mid, x.votes ≤ acc.votes) :
    ∃ before after,
      pre ++ acc :: mid ++ rest = before ++ rest.foldl winningStep acc :: after ∧
      (∀ x ∈ before, x.votes < (rest.foldl winningStep acc).votes) ∧
      (∀ x ∈ after, x.votes ≤ (rest.foldl winningStep acc).votes) := by
  induction rest generalizing pre mid acc with
  | nil => exact ⟨pre, mid, by simp, hpre, hmid⟩
  | cons c rest ih =>
    rw [List.foldl_cons]
    by_cases h : acc.votes < c.votes
    · have hstep : winningStep acc c = c := by
        unfold winningStep
        rw [orZero_eq, if_pos h]
      rw [hstep]
      obtain ⟨before, after, heq, hb, ha⟩ := ih (pre ++ acc :: mid) [] c
        (by
          intro x hx
          rcases List.mem_append.1 hx with hx | hx
          · exact (hpre x hx).trans h
          · rcases List.mem_cons.1 hx with rfl | hx
            · exact h
            · exact lt_of_le_of_lt (hmid x hx) h)
        (by simp)
      refine ⟨before, after, ?_, hb, ha⟩
      rw [← heq]
      simp
    · have hstep : winningStep acc c = acc := by
        unfold winningStep
        rw [orZero_eq, if_neg h]
      rw [hstep]
      obtain ⟨before, after, heq, hb, ha⟩ := ih pre (mid ++ [c]) acc hpre
        (by
          intro x hx
          rcases List.mem_append.1 hx with hx | hx
          · exact hmid x hx
          · rw [List.mem_singleton.1 hx]
            exact not_lt.1 h)
      refine ⟨before, after, ?_, hb, ha⟩
      rw [← heq]
      simp

/-- C27: `winningChoice` is `null` iff the choices list is empty; for every
non-empty list it is an element of the list, every choice before it has strictly
fewer votes and every choice after it has at most as many: its votes are maximal
and among the choices tied for the maximum it is the earliest. -/
theorem winningChoice_spec (choices : List PollChoice) :
    (winningChoice choices = none ↔ choices = []) ∧
    (choices ≠ [] →
      ∃ w before after, winningChoice choices = some w ∧
        choices = before ++ w :: after ∧
        (∀ x ∈ before, x.votes < w.votes) ∧ (∀ x ∈ after, x.votes ≤ w.votes) ∧
        w ∈ choices ∧ (∀ x ∈ choices, x.votes ≤ w.votes)) := by
  cases choices with
  | nil => simp [winningChoice]
  | cons first rest =>
    refine ⟨by simp [winningChoice], fun _ => ?_⟩
    obtain ⟨before, after, heq, hb, ha⟩ := winning_fold rest [] [] first (by simp) (by simp)
    have hself : winningStep first first = first := by
      unfold winningStep
      rw [orZero_eq, if_neg (lt_irrefl _)]
    have hstep : (first :: rest).foldl winningStep first = rest.foldl winningStep first := by
      rw [List.foldl_cons, hself]
    simp only [List.nil_append, List.singleton_append] at heq
    refine ⟨_, before, after, by simp only [winningChoice, hstep], heq, hb, ha, ?_, ?_⟩
    · rw [heq]
      simp
    · intro x hx
      rw [heq] at hx
      rcases List.mem_append.1 hx with hx | hx
      · exact (hb x hx).le
      · rcases List.mem_cons.1 hx with rfl | hx
        · exact le_refl _
        · exact ha x hx

/-- Witness for `winningChoice_spec`: of the choices `1` (2 votes), `2` (5
votes) and `3` (5 votes), the winner is choice `2`. -/
theorem winningChoice_spec_witness :
    [choiceOf (JsId.num 1) 2, choiceOf (JsId.num 2) 5, choiceOf (JsId.num 3) 5] ≠ [] ∧
    winningChoice
      [choiceOf (JsId.num 1) 2, choiceOf (JsId.num 2) 5, choiceOf (JsId.num 3) 5] =
      some (choiceOf (JsId.num 2) 5) ∧
    ∃ w, winningChoice
        [choiceOf (JsId.num 1) 2, choiceOf (JsId.num 2) 5, choiceOf (JsId.num 3) 5] =
        some w ∧
      ∀ x ∈ [choiceOf (JsId.num 1) 2, choiceOf (JsId.num 2) 5, choiceOf (JsId.num 3) 5],
        x.votes ≤ w.votes :=
  ⟨by decide, by decide,
    by
      obtain ⟨w, _, _, hw, _, _, _, _, hmax⟩ :=
        (winningChoice_spec
          [choiceOf (JsId.num 1) 2, choiceOf (JsId.num 2) 5,
            choiceOf (JsId.num 3) 5]).2 (by decide)
      exact ⟨w, hw, hmax⟩⟩

end PollVoting


/-! ### The selections a summary response brings -/

namespace SlotPlanner

theorem VoteMap.set_ne_nil (m : VoteMap) (slotId : String) (choice : VoteChoice) :
    m.set slotId choice ≠ [] := by
  cases m with
  | nil => simp [VoteMap.set]
  | cons kv rest =>
    rcases kv with ⟨k, v⟩
    simp only [VoteMap.set]
    split_ifs <;> simp

theorem collectChoices_cons (mv : VoteMap) (s : Slot) (rest : List Slot) :
    collectChoices mv (s :: rest) =
      collectChoices (match userChoice s with
        | some c => mv.set s.slot_id c
        | none => mv) rest := rfl

theorem collectChoices_append (mv : VoteMap) (s : Slot) (rest : List Slot) :
    collectChoices mv (rest ++ [s]) =
      match userChoice s with
      | some c => (collectChoices mv rest).set s.slot_id c
      | none => collectChoices mv rest := by
  unfold collectChoices
  rw [List.foldl_append]
  rfl

theorem fetchSlotsThen_myVotes_eq (fetched : List Slot) (st : State) :
    (fetchSlotsThen fetched st).myVotes =
      if (collectChoices [] fetched).length ≠ 0 then collectChoices [] fetched
      else st.myVotes := rfl

theorem collect_of_none (fetched : List Slot) (mv : VoteMap)
    (h : ∀ s ∈ fetched, userChoice s = none) : collectChoices mv fetched = mv := by
  induction fetched generalizing mv with
  | nil => rfl
  | cons s rest ih =>
    rw [collectChoices_cons, h s (List.mem_cons_self _ _)]
    exact ih mv (fun t ht => h t (List.mem_cons_of_mem _ ht))

theorem collect_ne_nil (fetched : List Slot) (mv : VoteMap) (h : mv ≠ []) :
    collectChoices mv fetched ≠ [] := by
  induction fetched generalizing mv with
  | nil => exact h
  | cons s rest ih =>
    rw [collectChoices_cons]
    apply ih
    cases hu : userChoice s with
    | none => exact h
    | some c => exact VoteMap.set_ne_nil _ _ _

theorem collect_ne_nil_of_some (fetched : List Slot)
    (h : ∃ s ∈ fetched, userChoice s ≠ none) : collectChoices [] fetched ≠ [] := by
  induction fetched with
  | nil =>
    obtain ⟨s, hs, _⟩ := h
    exact absurd hs (List.not_mem_nil _)
  | cons s rest ih =>
    rw [collectChoices_cons]
    cases hu : userChoice s with
    | some c => exact collect_ne_nil rest _ (VoteMap.set_ne_nil _ _ _)
    | none =>
      apply ih
      obtain ⟨t, ht, htc⟩ := h
      rcases List.mem_cons.1 ht with rfl | ht
      · exact absurd hu htc
      · exact ⟨t, ht, htc⟩

theorem collect_get (fetched : List Slot) (mv : VoteMap) (key : String) :
    (collectChoices mv fetched).get key =
      match fetchedChoice fetched key with
      | some c => some c
      | none => mv.get key := by
  induction fetched using List.reverseRecOn with
  | nil => simp [fetchedChoice, collectChoices]
  | append_singleton rest s ih =>
    rw [collectChoices_append]
    unfold fetchedChoice at ih ⊢
    rw [List.reverse_append, List.reverse_singleton, List.singleton_append, List.find?_cons]
    cases hu : userChoice s with
    | none =>
      simp only [hu, Option.isSome_none, Bool.and_false]
      exact ih
    | some c =>
      by_cases hk : s.slot_id = key
      · subst hk
        simp only [decide_True, hu, Option.isSome_some, Bool.and_self, Option.bind_some,
          Option.some_bind]
        exact VoteMap.get_set_self _ _ _
      · simp only [hk, decide_False, Bool.false_and]
        rw [VoteMap.get_set_of_ne _ _ _ _ (fun h => hk h.symm)]
        exact ih

/-- C28: for every fetched slot list and every prior `myVotes`, if no fetched slot
carries `user_choice` `"yes"` or `"no"` then `myVotes` is unchanged; otherwise
`myVotes` reads, at every key, the `user_choice` of the fetched slot with that
`slot_id` that carries one (the last such slot, if several), and nothing at any
other key: the selections recorded locally for other slots are dropped. -/
theorem fetchSlotsThen_myVotes (fetched : List Slot) (st : State) :
    ((∀ s ∈ fetched, userChoice s = none) →
      (fetchSlotsThen fetched st).myVotes = st.myVotes) ∧
    ((∃ s ∈ fetched, userChoice s ≠ none) →
      (∀ key, (fetchSlotsThen fetched st).myVotes.get key = fetchedChoice fetched key) ∧
      (∀ key, (∀ s ∈ fetched, s.slot_id = key → userChoice s = none) →
        (fetchSlotsThen fetched st).myVotes.get key = none)) := by
  constructor
  · intro h
    rw [fetchSlotsThen_myVotes_eq, collect_of_none fetched [] h]
    rfl
  · intro h
    have hne := collect_ne_nil_of_some fetched h
    have hlen : (collectChoices [] fetched).length ≠ 0 :=
      fun h0 => hne (List.length_eq_zero.1 h0)
    have hget : ∀ key, (fetchSlotsThen fetched st).myVotes.get key =
        fetchedChoice fetched key := by
      intro key
      rw [fetchSlotsThen_myVotes_eq, if_pos hlen, collect_get fetched [] key]
      cases fetchedChoice fetched key <;> rfl
    refine ⟨hget, fun key hkey => ?_⟩
    rw [hget key]
    unfold fetchedChoice
    have hfind : fetched.reverse.find?
        (fun s => decide (s.slot_id = key) && (userChoice s).isSome) = none := by
      rw [List.find?_eq_none]
      intro s hs
      have hs1 : s ∈ fetched := List.mem_reverse.1 hs
      by_cases hk : s.slot_id = key
      · simp [hk, hkey s hs1 hk]
      · simp [hk]
    rw [hfind]
    rfl

/-- Witness for `fetchSlotsThen_myVotes`: a response in which only slot `b`
carries a `user_choice` replaces the local selections for `a` and `c` by the one
for `b`. -/
theorem fetchSlotsThen_myVotes_witness :
    (∃ s ∈ [slotOf "a" 1 0, { slotOf "b" 0 1 with user_choice := some "no" }],
      userChoice s ≠ none) ∧
    (fetchSlotsThen [slotOf "a" 1 0, { slotOf "b" 0 1 with user_choice := some "no" }]
      (stateOf [] [("a", VoteChoice.yes), ("c", VoteChoice.yes)])).myVotes =
      [("b", VoteChoice.no)] ∧
    VoteMap.get (fetchSlotsThen
      [slotOf "a" 1 0, { slotOf "b" 0 1 with user_choice := some "no" }]
      (stateOf [] [("a", VoteChoice.yes), ("c", VoteChoice.yes)])).myVotes "a" = none :=
  ⟨by decide, by decide,
    ((fetchSlotsThen_myVotes
      [slotOf "a" 1 0, { slotOf "b" 0 1 with user_choice := some "no" }]
      (stateOf [] [("a", VoteChoice.yes), ("c", VoteChoice.yes)])).2 (by decide)).2 "a"
      (by decide)⟩

end SlotPlanner

end BipCoord
